import Mathlib

/-!
Verification development for the `python-gc` crate: a shallow embedding of
the collector (`src/collector.rs`), generations (`src/generation.rs`),
object headers (`src/object.rs`), the facade (`src/gc.rs`), the traversal
graph (`src/traversal.rs`) and the FFI boundary (`src/ffi.rs`), together
with theorems settling the specification claims.
-/

namespace PyGC

/-- `GCError` from `src/error.rs`. -/
inductive GCError where
  | alreadyTracked : GCError
  | notTracked : GCError
  | collectionInProgress : GCError
  | invalidGeneration : Nat → GCError
  | hasFinalizer : GCError
  | internal : String → GCError
  | allocationFailed : String → GCError
  | referenceCountError : String → GCError
deriving DecidableEq, Repr

/-- `GCResult<T> = Result<T, GCError>` from `src/lib.rs`. -/
abbrev GCResult (α : Type) := Except GCError α

/-- `ObjectId` (`src/object.rs`): a process-wide integer identity. -/
abbrev ObjectId := Nat

/-- `PyGCHead` (`src/object.rs`): the per-object GC header.
`gcRefs` is the shadow refcount scratch field. -/
structure PyGCHead where
  gcNext : Nat
  gcPrev : Nat
  gcRefs : Int
  collecting : Bool
  finalized : Bool
deriving DecidableEq, Repr

namespace PyGCHead

/-- `PyGCHead::new`. -/
def new : PyGCHead :=
  { gcNext := 0, gcPrev := 0, gcRefs := 0, collecting := false, finalized := false }

/-- `PyGCHead::get_refs`. -/
def get_refs (h : PyGCHead) : Int := h.gcRefs

/-- `PyGCHead::set_refs`. -/
def set_refs (h : PyGCHead) (refs : Int) : PyGCHead := { h with gcRefs := refs }

/-- `PyGCHead::set_collecting`: sets the flag and bit 1 of `_gc_prev`. -/
def set_collecting (h : PyGCHead) : PyGCHead :=
  { h with collecting := true, gcPrev := h.gcPrev ||| 2 }

/-- `PyGCHead::clear_collecting`: clears the flag and bit 1 of `_gc_prev`
(`_gc_prev &= !2`, which clears exactly that bit). -/
def clear_collecting (h : PyGCHead) : PyGCHead :=
  { h with collecting := false, gcPrev := h.gcPrev - (h.gcPrev &&& 2) }

/-- `PyGCHead::is_collecting`. -/
def is_collecting (h : PyGCHead) : Bool := h.collecting


end PyGCHead

/-- `ObjectData` (`src/object.rs`): the tagged payload.  Container
variants hold child object ids (the spec's payload model); the collector
only ever inspects the tag. -/
inductive ObjectData where
  | integer : Int → ObjectData
  | string : String → ObjectData
  | list : List ObjectId → ObjectData
  | dict : List (ObjectId × ObjectId) → ObjectData
  | tuple : List ObjectId → ObjectData
  | set : List ObjectId → ObjectData
  | custom : ObjectData
  | none : ObjectData
deriving DecidableEq, Repr

/-- `PyObject` (`src/object.rs`). -/
structure PyObject where
  id : ObjectId
  gcTracked : Bool
  hasFinalizer : Bool
  refcount : Nat
  gcHead : Option PyGCHead
  typeName : String
  data : ObjectData
deriving DecidableEq, Repr

namespace PyObject

/-- `PyObject::get_refcount`. -/
def get_refcount (o : PyObject) : Nat := o.refcount

end PyObject

/-! Association-list model of `HashMap<ObjectId, PyObject>`.  All claim
statements are order-independent, so the list order is immaterial. -/

/-- `HashMap::get` (first binding of the key). -/
def alGet (m : List (ObjectId × PyObject)) (k : ObjectId) : Option PyObject :=
  (m.find? (fun p => p.1 == k)).map Prod.snd

/-- `HashMap::contains_key`. -/
def alContains (m : List (ObjectId × PyObject)) (k : ObjectId) : Bool :=
  (m.find? (fun p => p.1 == k)).isSome

/-- `HashMap::insert` (replace the binding when present, append otherwise). -/
def alInsert (m : List (ObjectId × PyObject)) (k : ObjectId) (v : PyObject) :
    List (ObjectId × PyObject) :=
  if alContains m k then m.map (fun p => if p.1 == k then (k, v) else p)
  else m ++ [(k, v)]

/-- `HashMap::remove` (drops the binding; returns the removed value). -/
def alRemove (m : List (ObjectId × PyObject)) (k : ObjectId) :
    Option PyObject × List (ObjectId × PyObject) :=
  (alGet m k, m.filter (fun p => ¬ p.1 == k))

/-- `Generation` (`src/generation.rs`). -/
structure Generation where
  head : PyGCHead
  threshold : Nat
  count : Nat
  objects : List (ObjectId × PyObject)
deriving DecidableEq, Repr

namespace Generation

/-- `Generation::new`. -/
def new (threshold : Nat) : Generation :=
  { head := PyGCHead.new, threshold := threshold, count := 0, objects := [] }

/-- `Generation::should_collect`: `count >= threshold`. -/
def should_collect (g : Generation) : Bool := g.count ≥ g.threshold

/-- `Generation::add_object`. -/
def add_object (g : Generation) (obj : PyObject) : GCResult Generation :=
  if alContains g.objects obj.id then .error .alreadyTracked
  else .ok { g with objects := g.objects ++ [(obj.id, obj)], count := g.count + 1 }

/-- `Generation::remove_object`. -/
def remove_object (g : Generation) (objId : ObjectId) :
    GCResult (PyObject × Generation) :=
  match alRemove g.objects objId with
  | (Option.none, _) => .error .notTracked
  | (Option.some obj, rest) =>
      .ok (obj, { g with objects := rest, count := g.count - 1 })

/-- `Generation::is_empty`: `count == 0`. -/
def is_empty (g : Generation) : Bool := g.count == 0

/-- `Generation::clear`: drains the objects, resets the count, returns them. -/
def clear (g : Generation) : List PyObject × Generation :=
  (g.objects.map Prod.snd, { g with objects := [], count := 0 })

end Generation

/-- `GenerationManager` (`src/generation.rs`). -/
structure GenerationManager where
  generations : List Generation
  permanentGeneration : Generation
  collectingGeneration : Option Nat
deriving DecidableEq, Repr

namespace GenerationManager

/-- `GenerationManager::new`: thresholds 700, 10, 10. -/
def new : GenerationManager :=
  { generations := [Generation.new 700, Generation.new 10, Generation.new 10]
    permanentGeneration := Generation.new 0
    collectingGeneration := Option.none }

/-- `GenerationManager::get_generation`. -/
def get_generation (gm : GenerationManager) (idx : Nat) : Option Generation :=
  gm.generations.get? idx

/-- Replace generation `idx` (the effect of a mutation through
`get_generation_mut`). -/
def setGeneration (gm : GenerationManager) (idx : Nat) (g : Generation) :
    GenerationManager :=
  { gm with generations := gm.generations.set idx g }

/-- `GenerationManager::add_to_generation0`. -/
def add_to_generation0 (gm : GenerationManager) (obj : PyObject) :
    GCResult GenerationManager :=
  match gm.get_generation 0 with
  | Option.none => .error (.internal "Generation 0 not found")
  | Option.some g0 => do
      let g0' ← g0.add_object obj
      pure (gm.setGeneration 0 g0')

/-- One step of `promote_generation`'s loop: add a drained object to the
next-older generation. -/
def promoteStep (fromGen : Nat) (acc : GenerationManager) (obj : PyObject) :
    GCResult GenerationManager :=
  match acc.get_generation (fromGen + 1) with
  | Option.none => .error (.internal "missing generation")
  | Option.some tg => do
      let tg' ← tg.add_object obj
      pure (acc.setGeneration (fromGen + 1) tg')

/-- `GenerationManager::promote_generation`. -/
def promote_generation (gm : GenerationManager) (fromGen : Nat) :
    GCResult GenerationManager :=
  if fromGen ≥ gm.generations.length - 1 then .ok gm
  else
    match gm.get_generation fromGen with
    | Option.none => .ok gm
    | Option.some g =>
        let (objs, gCleared) := g.clear
        let gm := gm.setGeneration fromGen gCleared
        objs.foldlM (promoteStep fromGen) gm

/-- `GenerationManager::start_collection`. -/
def start_collection (gm : GenerationManager) (idx : Nat) :
    GCResult GenerationManager :=
  if gm.collectingGeneration.isSome then .error .collectionInProgress
  else if idx ≥ gm.generations.length then
    .error (.internal ("Invalid generation: " ++ toString idx))
  else .ok { gm with collectingGeneration := Option.some idx }

/-- `GenerationManager::end_collection`. -/
def end_collection (gm : GenerationManager) : GenerationManager :=
  { gm with collectingGeneration := Option.none }

/-- Modelled from the spec: `GenerationManager::should_collect_generation`
is called by `GarbageCollector::needs_collection` (`src/gc.rs` line 94) but
is absent from `src/generation.rs`.  Per the spec (§4.2
`should_collect(): count >= threshold`, §4.5 `needs_collection`), it
delegates to the indexed generation's `should_collect`. -/
def should_collect_generation (gm : GenerationManager) (idx : Nat) : Bool :=
  match gm.get_generation idx with
  | Option.none => false
  | Option.some g => g.should_collect

end GenerationManager

/-- `Collector` (`src/collector.rs`). -/
structure Collector where
  generationManager : GenerationManager
  trackedObjects : List (ObjectId × PyObject)
  collectingObjects : List ObjectId
  uncollectable : List PyObject
  debugFlags : Nat
deriving DecidableEq, Repr

namespace Collector

/-- `Collector::new`. -/
def new : Collector :=
  { generationManager := GenerationManager.new
    trackedObjects := []
    collectingObjects := []
    uncollectable := []
    debugFlags := 0 }

/-- `Collector::track_object_fast`: marks the object tracked, attaches a
fresh GC head, adds it to generation 0, then records it in
`tracked_objects`. -/
def track_object_fast (c : Collector) (obj : PyObject) : GCResult Collector :=
  if obj.gcTracked then .error .alreadyTracked
  else
    let obj := { obj with gcTracked := true, gcHead := Option.some PyGCHead.new }
    do
      let gm ← c.generationManager.add_to_generation0 obj
      pure { c with generationManager := gm
                    trackedObjects := alInsert c.trackedObjects obj.id obj }

/-- `Collector::untrack_object_fast`: removes from `tracked_objects`
(`NotTracked` when absent), then best-effort removes from generation 0,
ignoring that result. -/
def untrack_object_fast (c : Collector) (objId : ObjectId) : GCResult Collector :=
  match alRemove c.trackedObjects objId with
  | (Option.none, _) => .error .notTracked
  | (Option.some _, rest) =>
      let c := { c with trackedObjects := rest }
      match c.generationManager.get_generation 0 with
      | Option.none => .ok c
      | Option.some g0 =>
          match g0.remove_object objId with
          | .error _ => .ok c
          | .ok (_, g0') =>
              .ok { c with generationManager := c.generationManager.setGeneration 0 g0' }

/-- `Collector::has_finalizer`: true exactly when the payload data is the
`Custom` variant (the `has_finalizer` field is not consulted). -/
def hasFinalizerOf (o : PyObject) : Bool :=
  match o.data with
  | ObjectData.custom => true
  | _ => false

/-- The per-entry body of `update_refs`: snapshot the true refcount into
the shadow field and set the collecting bit (entries without a GC head are
left alone). -/
def updFn (p : ObjectId × PyObject) : ObjectId × PyObject :=
  match p.2.gcHead with
  | Option.none => p
  | Option.some h =>
      let h' := (h.set_refs (Int.ofNat p.2.get_refcount)).set_collecting
      (p.1, { p.2 with gcHead := Option.some h' })

/-- `Collector::update_refs`: applies `updFn` to every object of the
generation. -/
def update_refs (c : Collector) (generation : Nat) : GCResult Collector :=
  match c.generationManager.get_generation generation with
  | Option.none =>
      .error (.internal ("Generation " ++ toString generation ++ " not found"))
  | Option.some g =>
      let g' := { g with objects := g.objects.map updFn }
      .ok { c with generationManager :=
        c.generationManager.setGeneration generation g' }

/-- The per-entry body of `subtract_refs`: a positive shadow count is
decremented by one. -/
def subFn (p : ObjectId × PyObject) : ObjectId × PyObject :=
  match p.2.gcHead with
  | Option.none => p
  | Option.some h =>
      if h.get_refs > 0 then
        (p.1, { p.2 with gcHead := Option.some (h.set_refs (h.get_refs - 1)) })
      else p

/-- `Collector::subtract_refs`: applies `subFn` to every object of the
generation (no payload traversal takes place). -/
def subtract_refs (c : Collector) (generation : Nat) : GCResult Collector :=
  match c.generationManager.get_generation generation with
  | Option.none =>
      .error (.internal ("Generation " ++ toString generation ++ " not found"))
  | Option.some g =>
      let g' := { g with objects := g.objects.map subFn }
      .ok { c with generationManager :=
        c.generationManager.setGeneration generation g' }

/-- The selection predicate of `move_unreachable`: a GC head with shadow
count zero. -/
def isShadowZero (o : PyObject) : Bool :=
  match o.gcHead with
  | Option.some h => h.get_refs == 0
  | Option.none => false

/-- `Collector::move_unreachable`: returns the objects of the generation
whose shadow count is zero; no transitive-closure expansion is performed. -/
def move_unreachable (c : Collector) (generation : Nat) : GCResult (List PyObject) :=
  match c.generationManager.get_generation generation with
  | Option.none =>
      .error (.internal ("Generation " ++ toString generation ++ " not found"))
  | Option.some g =>
      .ok ((g.objects.map Prod.snd).filter isShadowZero)

/-- `Collector::handle_finalizers`: collects the unreachable objects whose
payload is `Custom`; the state is unchanged. -/
def handle_finalizers (unreachable : List PyObject) : List PyObject :=
  unreachable.filter hasFinalizerOf

/-- One step of `clear_unreachable`: an object without a finalizer is
dropped from `tracked_objects` and counted; one with a finalizer is pushed
onto `uncollectable`. -/
def clearStep (acc : Nat × Collector) (obj : PyObject) : Nat × Collector :=
  if hasFinalizerOf obj then
    (acc.1, { acc.2 with uncollectable := acc.2.uncollectable ++ [obj] })
  else
    (acc.1 + 1,
     { acc.2 with trackedObjects := (alRemove acc.2.trackedObjects obj.id).2 })

/-- `Collector::clear_unreachable`: folds `clearStep` over the unreachable
objects.  The generation lists are not touched. -/
def clear_unreachable (c : Collector) (unreachable : List PyObject) :
    Nat × Collector :=
  unreachable.foldl clearStep (0, c)

/-- The per-entry body of `restore_refs`: clear the collecting bit. -/
def restFn (p : ObjectId × PyObject) : ObjectId × PyObject :=
  match p.2.gcHead with
  | Option.none => p
  | Option.some h => (p.1, { p.2 with gcHead := Option.some h.clear_collecting })

/-- `Collector::restore_refs`: applies `restFn` to every object of the
generation. -/
def restore_refs (c : Collector) (generation : Nat) : GCResult Collector :=
  match c.generationManager.get_generation generation with
  | Option.none =>
      .error (.internal ("Generation " ++ toString generation ++ " not found"))
  | Option.some g =>
      let g' := { g with objects := g.objects.map restFn }
      .ok { c with generationManager :=
        c.generationManager.setGeneration generation g' }

/-- The inner step of `merge_younger_generations`: add one drained object
to the target generation. -/
def mergeInnerStep (generation : Nat) (a : Collector) (obj : PyObject) :
    GCResult Collector :=
  match a.generationManager.get_generation generation with
  | Option.none =>
      .error (.internal ("Generation " ++ toString generation ++ " not found"))
  | Option.some gt => do
      let gt' ← gt.add_object obj
      pure { a with generationManager :=
        a.generationManager.setGeneration generation gt' }

/-- The outer step of `merge_younger_generations`: drain one younger
generation and add each of its objects to the target generation. -/
def mergeOuterStep (generation : Nat) (acc : Collector) (i : Nat) :
    GCResult Collector :=
  match acc.generationManager.get_generation i with
  | Option.none =>
      .error (.internal ("Generation " ++ toString i ++ " not found"))
  | Option.some gi =>
      let (objs, giCleared) := gi.clear
      let acc := { acc with generationManager :=
        acc.generationManager.setGeneration i giCleared }
      objs.foldlM (mergeInnerStep generation) acc

/-- `Collector::merge_younger_generations`: drains every generation younger
than the target and adds its objects to the target generation. -/
def merge_younger_generations (c : Collector) (generation : Nat) : GCResult Collector :=
  (List.range generation).foldlM (mergeOuterStep generation) c

/-- `Collector::collect_main`: the phase pipeline
update → subtract → move_unreachable → finalizers → clear → restore. -/
def collect_main (c : Collector) (generation : Nat) : GCResult (Nat × Collector) :=
  match c.generationManager.get_generation generation with
  | Option.none =>
      .error (.internal ("Generation " ++ toString generation ++ " not found"))
  | Option.some g =>
      if g.is_empty then .ok (0, c)
      else do
        let c ← c.update_refs generation
        let c ← c.subtract_refs generation
        let unreachable ← c.move_unreachable generation
        let _finalizers := handle_finalizers unreachable
        let (collected, c) := c.clear_unreachable unreachable
        let c ← c.restore_refs generation
        pure (collected, c)

/-- `Collector::collect_generation`.  `freshId` is the id produced by the
`ObjectId::new()` call in the collection-in-progress test. -/
def collect_generation (c : Collector) (generation : Nat) (freshId : ObjectId) :
    GCResult (Nat × Collector) :=
  if c.collectingObjects.contains freshId then .error .collectionInProgress
  else do
    let gm ← c.generationManager.start_collection generation
    let c := { c with generationManager := gm }
    match c.generationManager.get_generation generation with
    | Option.none =>
        .error (.internal ("Generation " ++ toString generation ++ " not found"))
    | Option.some _ => do
        let c ← c.merge_younger_generations generation
        let (collected, c) ← c.collect_main generation
        let c ←
          if generation < 2 then do
            let gm ← c.generationManager.promote_generation generation
            pure { c with generationManager := gm }
          else pure c
        let c := { c with generationManager := c.generationManager.end_collection }
        pure (collected, c)

/-- Modelled from the spec: `Collector::get_count` is called by the facade
(`src/gc.rs` line 114) but is absent from `src/collector.rs`.  Per the
spec (§4.5 `get_count()`, §8 round-trip laws), it returns the number of
tracked objects. -/
def get_count (c : Collector) : Nat := c.trackedObjects.length

/-- Modelled from the spec: `Collector::set_debug_flags` is called by the
facade (`src/gc.rs` line 105) but is absent from `src/collector.rs`; per
the spec (§4.5 `set_debug(flags)`) it stores the flags. -/
def set_debug_flags (c : Collector) (flags : Nat) : Collector :=
  { c with debugFlags := flags }

end Collector

/-- `GarbageCollector` (`src/gc.rs`): the boundary facade. -/
structure GarbageCollector where
  collector : Collector
  enabled : Bool
  thresholds : List Nat
  debugFlags : Nat
deriving DecidableEq, Repr

namespace GarbageCollector

/-- `GarbageCollector::new`: enabled, thresholds `[700, 10, 10]`. -/
def new : GarbageCollector :=
  { collector := Collector.new
    enabled := true
    thresholds := [700, 10, 10]
    debugFlags := 0 }

/-- `GarbageCollector::enable`. -/
def enable (gc : GarbageCollector) : GarbageCollector := { gc with enabled := true }

/-- `GarbageCollector::disable`. -/
def disable (gc : GarbageCollector) : GarbageCollector := { gc with enabled := false }

/-- `GarbageCollector::track`: a success no-op while disabled, otherwise
`Collector::track_object_fast`. -/
def track (gc : GarbageCollector) (obj : PyObject) : GCResult GarbageCollector :=
  if ¬ gc.enabled then .ok gc
  else do
    let c ← gc.collector.track_object_fast obj
    pure { gc with collector := c }

/-- `GarbageCollector::untrack`: returns `Ok` without touching any state
while disabled, otherwise `Collector::untrack_object_fast`. -/
def untrack (gc : GarbageCollector) (objId : ObjectId) : GCResult GarbageCollector :=
  if ¬ gc.enabled then .ok gc
  else do
    let c ← gc.collector.untrack_object_fast objId
    pure { gc with collector := c }

/-- `GarbageCollector::collect_generation`. -/
def collect_generation (gc : GarbageCollector) (generation : Nat) (freshId : ObjectId) :
    GCResult (Nat × GarbageCollector) :=
  if ¬ gc.enabled then .ok (0, gc)
  else do
    let (n, c) ← gc.collector.collect_generation generation freshId
    pure (n, { gc with collector := c })

/-- `GarbageCollector::collect`: collects generation 2. -/
def collect (gc : GarbageCollector) (freshId : ObjectId) :
    GCResult (Nat × GarbageCollector) :=
  if ¬ gc.enabled then .ok (0, gc)
  else do
    let (n, c) ← gc.collector.collect_generation 2 freshId
    pure (n, { gc with collector := c })

/-- `GarbageCollector::needs_collection`: delegates to
`should_collect_generation 0` on the generation manager. -/
def needs_collection (gc : GarbageCollector) : Bool :=
  gc.collector.generationManager.should_collect_generation 0

/-- `GarbageCollector::get_count`. -/
def get_count (gc : GarbageCollector) : Nat := gc.collector.get_count

/-- `GarbageCollector::set_threshold`: rejects indices `>= 3`, otherwise
updates only the facade's threshold array. -/
def set_threshold (gc : GarbageCollector) (generation threshold : Nat) :
    GCResult GarbageCollector :=
  if generation ≥ 3 then
    .error (.internal ("Invalid generation: " ++ toString generation))
  else .ok { gc with thresholds := gc.thresholds.set generation threshold }

/-- `GarbageCollector::get_threshold`. -/
def get_threshold (gc : GarbageCollector) (generation : Nat) : Option Nat :=
  gc.thresholds.get? generation

/-- `GarbageCollector::collect_if_needed`: collects the oldest generation
whose own `should_collect` holds, else returns 0. -/
def collect_if_needed (gc : GarbageCollector) (freshId : ObjectId) :
    GCResult (Nat × GarbageCollector) :=
  if ¬ gc.enabled then .ok (0, gc)
  else
    let shouldAt := fun idx =>
      match gc.collector.generationManager.get_generation idx with
      | Option.none => false
      | Option.some g => g.should_collect
    if shouldAt 2 then do
      let (n, c) ← gc.collector.collect_generation 2 freshId
      pure (n, { gc with collector := c })
    else if shouldAt 1 then do
      let (n, c) ← gc.collector.collect_generation 1 freshId
      pure (n, { gc with collector := c })
    else if shouldAt 0 then do
      let (n, c) ← gc.collector.collect_generation 0 freshId
      pure (n, { gc with collector := c })
    else .ok (0, gc)

/-- `GarbageCollector::set_debug`. -/
def set_debug (gc : GarbageCollector) (flags : Nat) : GarbageCollector :=
  { gc with debugFlags := flags, collector := gc.collector.set_debug_flags flags }

/-- `GarbageCollector::clear_uncollectable`. -/
def clear_uncollectable (gc : GarbageCollector) : GarbageCollector :=
  { gc with collector := { gc.collector with uncollectable := [] } }

end GarbageCollector

/-! The traversal graph (`src/traversal.rs`). -/

/-- `ReferenceType` (`src/traversal.rs`). -/
inductive ReferenceType where
  | direct : ReferenceType
  | weak : ReferenceType
  | finalizerLink : ReferenceType
deriving DecidableEq, Repr

/-- `Reference` (`src/traversal.rs`). -/
structure Reference where
  fromId : ObjectId
  toId : ObjectId
  referenceType : ReferenceType
deriving DecidableEq, Repr

/-- `ObjectGraph` (`src/traversal.rs`), restricted to the fields
`find_reachable` reads: the forward reference table. -/
structure ObjectGraph where
  references : List (ObjectId × List Reference)
deriving DecidableEq, Repr

namespace ObjectGraph

/-- The reference list of an object (empty when the id has no entry). -/
def refsOf (g : ObjectGraph) (objId : ObjectId) : List Reference :=
  ((g.references.find? (fun p => p.1 == objId)).map Prod.snd).getD []

/-- The targets of all outgoing references of `objId`, every
`ReferenceType` included. -/
def refTargets (g : ObjectGraph) (objId : ObjectId) : List ObjectId :=
  (g.refsOf objId).map Reference.toId

/-- All reference targets appearing anywhere in the graph. -/
def allTargets (g : ObjectGraph) : Finset ObjectId :=
  (g.references.flatMap (fun p => p.2.map Reference.toId)).toFinset

/-- One step of `find_reachable`'s inner loop: a target not yet in
`reachable` is inserted and enqueued. -/
def ptStep (acc : Finset ObjectId × List ObjectId) (t : ObjectId) :
    Finset ObjectId × List ObjectId :=
  if t ∈ acc.1 then acc else (insert t acc.1, acc.2 ++ [t])

/-- The body of `find_reachable`'s inner loop over the references of the
dequeued object: returns the grown reachable set and the newly enqueued
ids. -/
def processTargets (reach : Finset ObjectId) (tos : List ObjectId) :
    Finset ObjectId × List ObjectId :=
  tos.foldl ptStep (reach, [])

/-- The worklist loop of `find_reachable` (`src/traversal.rs`): dequeue an
id, enqueue all its not-yet-seen reference targets, repeat.  The loop
consumes one unit of the explicit bound `fuel` per iteration; the bound
chosen by `find_reachable` is provably never exhausted, because every
dequeued id entered the queue exactly once (`findReachableAux_spec` and
`find_reachable_iff` below are stated without any bound). -/
def findReachableAux (g : ObjectGraph) : Nat → List ObjectId → Finset ObjectId →
    Finset ObjectId
  | _, [], reach => reach
  | 0, _ :: _, reach => reach
  | fuel + 1, cur :: rest, reach =>
      findReachableAux g fuel
        (rest ++ (processTargets reach (g.refTargets cur)).2)
        (processTargets reach (g.refTargets cur)).1

/-- `ObjectGraph::find_reachable`: seeds the reachable set and the queue
with every root, then runs the worklist loop.  The bound equals the loop
measure, which strictly decreases each iteration. -/
def find_reachable (g : ObjectGraph) (roots : List ObjectId) : Finset ObjectId :=
  findReachableAux g ((g.allTargets \ roots.toFinset).card + roots.length)
    roots roots.toFinset

/-- One reference step in the graph, of any `ReferenceType`. -/
def Edge (g : ObjectGraph) (a b : ObjectId) : Prop := b ∈ g.refTargets a

/-- `ReachesFrom g roots x`: some root reaches `x` by zero or more
reference edges of any type. -/
def ReachesFrom (g : ObjectGraph) (roots : List ObjectId) (x : ObjectId) : Prop :=
  ∃ rt ∈ roots, Relation.ReflTransGen (Edge g) rt x

end ObjectGraph

/-! The FFI boundary (`src/ffi.rs`). -/

/-- `GCReturnCode` (`src/ffi.rs`): the stable cross-language codes. -/
inductive GCReturnCode where
  | success : GCReturnCode
  | errorAlreadyTracked : GCReturnCode
  | errorNotTracked : GCReturnCode
  | errorCollectionInProgress : GCReturnCode
  | errorInvalidGeneration : GCReturnCode
  | errorInternal : GCReturnCode
deriving DecidableEq, Repr

namespace GCReturnCode

/-- The integer value of each return code (`src/ffi.rs` lines 249-256). -/
def toInt : GCReturnCode → Int
  | success => 0
  | errorAlreadyTracked => -1
  | errorNotTracked => -2
  | errorCollectionInProgress => -3
  | errorInvalidGeneration => -4
  | errorInternal => -5

/-- `impl From<GCResult<usize>> for GCReturnCode` (`src/ffi.rs`). -/
def ofResult : GCResult (Nat × GarbageCollector) → GCReturnCode
  | .ok _ => success
  | .error GCError.alreadyTracked => errorAlreadyTracked
  | .error GCError.notTracked => errorNotTracked
  | .error GCError.collectionInProgress => errorCollectionInProgress
  | .error (GCError.invalidGeneration _) => errorInvalidGeneration
  | .error _ => errorInternal

end GCReturnCode

/-- `py_gc_collect_generation` (`src/ffi.rs` lines 445-458): with no
initialized collector the call fails `Internal`; a generation index
outside `0..=2` is rejected as `InvalidGeneration` before the collector
is touched; otherwise the facade's `collect_generation` runs and its
result is converted.  The state is the global `GC` option. -/
def py_gc_collect_generation (gcOpt : Option GarbageCollector) (generation : Int)
    (freshId : ObjectId) : GCReturnCode × Option GarbageCollector :=
  match gcOpt with
  | Option.none => (GCReturnCode.errorInternal, Option.none)
  | Option.some gc =>
      if ¬ (0 ≤ generation ∧ generation ≤ 2) then
        (GCReturnCode.errorInvalidGeneration, Option.some gc)
      else
        match gc.collect_generation generation.toNat freshId with
        | .ok (_, gc') => (GCReturnCode.success, Option.some gc')
        | .error e => (GCReturnCode.ofResult (.error e), Option.some gc)

/-! The `ObjectId` allocator (`src/object.rs` lines 8-17): a process-wide
counter starting at 1, bumped by a wrapping fetch-and-add on a `usize`. -/

/-- The id handed out by the `n`-th call (0-indexed) to `ObjectId::new`:
the counter starts at 1 and wraps at `2^64`. -/
def objectIdAt (n : Nat) : Nat := (1 + n) % 2 ^ 64

/-! Auxiliary definitions used by the claim statements: the spec's payload
traversal, the count collected by one `collect_main` pass, debug-flag
constants, the facade's reachable states, and the concrete scenario
states the claims talk about. -/

/-- Modelled from the spec: reference discovery over a payload (spec
§4.3), absent from `src/` (the collector never traverses payloads).
Sequences and sets yield each child id; mappings yield each key id then
each value id; scalar and opaque payloads yield nothing. -/
def payloadChildren : ObjectData → List ObjectId
  | ObjectData.list l => l
  | ObjectData.tuple l => l
  | ObjectData.set l => l
  | ObjectData.dict kvs => kvs.map Prod.fst ++ kvs.map Prod.snd
  | _ => []

/-- The number of references to `target` originating from objects of the
collecting set `objs`, counted by payload traversal (what the spec's
`subtract_refs` would subtract). -/
def inSEdgeCount (objs : List (ObjectId × PyObject)) (target : ObjectId) : Nat :=
  (objs.map (fun p => (payloadChildren p.2.data).count target)).sum

/-- The shadow count an object of the collecting set holds after
`update_refs` followed by `subtract_refs`: its refcount decremented once,
floored at zero. -/
def shadowAfterSubtract (rc : Nat) : Int :=
  if (Int.ofNat rc) > 0 then Int.ofNat rc - 1 else Int.ofNat rc

/-- The composite per-entry transformation a full `collect_main` pass
applies to a generation entry: `update_refs`, then `subtract_refs`, then
`restore_refs`. -/
def pipeFn (p : ObjectId × PyObject) : ObjectId × PyObject :=
  Collector.restFn (Collector.subFn (Collector.updFn p))

/-- The number of objects one `collect_main` pass reports as collected for
a non-empty generation with these entries: shadow-zero objects after the
update/subtract prefix, minus those whose payload is `Custom`. -/
def collectMainCount (objs : List (ObjectId × PyObject)) : Nat :=
  (((((objs.map Collector.updFn).map Collector.subFn).map Prod.snd).filter
      Collector.isShadowZero).filter
    (fun o => ¬ Collector.hasFinalizerOf o)).length

/-- The `SAVEALL` debug bit (spec §6: value 32). -/
def SAVEALL : Nat := 32

/-- The facade states reachable from `GarbageCollector::new` by the
boundary operations of the facade (spec §4.5). -/
inductive ReachableGC : GarbageCollector → Prop where
  | init : ReachableGC GarbageCollector.new
  | enable {gc} : ReachableGC gc → ReachableGC gc.enable
  | disable {gc} : ReachableGC gc → ReachableGC gc.disable
  | set_debug {gc} (flags : Nat) : ReachableGC gc → ReachableGC (gc.set_debug flags)
  | clear_uncollectable {gc} : ReachableGC gc → ReachableGC gc.clear_uncollectable
  | set_threshold {gc gc'} (g t : Nat) : ReachableGC gc →
      gc.set_threshold g t = .ok gc' → ReachableGC gc'
  | track {gc gc'} (obj : PyObject) : ReachableGC gc →
      gc.track obj = .ok gc' → ReachableGC gc'
  | untrack {gc gc'} (objId : ObjectId) : ReachableGC gc →
      gc.untrack objId = .ok gc' → ReachableGC gc'
  | collect {gc gc'} (freshId : ObjectId) (n : Nat) : ReachableGC gc →
      gc.collect freshId = .ok (n, gc') → ReachableGC gc'
  | collect_generation {gc gc'} (g : Nat) (freshId : ObjectId) (n : Nat) :
      ReachableGC gc → gc.collect_generation g freshId = .ok (n, gc') →
      ReachableGC gc'
  | collect_if_needed {gc gc'} (freshId : ObjectId) (n : Nat) : ReachableGC gc →
      gc.collect_if_needed freshId = .ok (n, gc') → ReachableGC gc'

/-- A sample host object for the concrete scenarios. -/
def sampleObject (id rc : Nat) (d : ObjectData) : PyObject :=
  { id := id, gcTracked := false, hasFinalizer := false, refcount := rc,
    gcHead := Option.none, typeName := "t", data := d }

/-- Scenario for C2 (spec §8 scenario 2): a two-object cycle A↔B where an
untracked external root also holds A, so `A.refcount = 2`,
`B.refcount = 1`; both are tracked. -/
def cycleExternalGC : GCResult GarbageCollector := do
  let gc ← GarbageCollector.new.track (sampleObject 1 2 (ObjectData.list [2]))
  gc.track (sampleObject 2 1 (ObjectData.list [1]))

/-- Scenario for C3: a single tracked object whose refcount is 1. -/
def singleObjectGC : GCResult GarbageCollector :=
  GarbageCollector.new.track (sampleObject 1 1 (ObjectData.integer 7))

/-- Scenario for C5 (spec §8 scenario 5): `set_threshold(0, 2)` followed by
tracking two objects. -/
def thresholdGC : GCResult GarbageCollector := do
  let gc ← GarbageCollector.new.set_threshold 0 2
  let gc ← gc.track (sampleObject 1 1 (ObjectData.integer 1))
  gc.track (sampleObject 2 1 (ObjectData.integer 2))

/-- Scenario for C6: track one object, disable the facade, untrack it. -/
def disabledUntrackGC : GCResult GarbageCollector := do
  let gc ← GarbageCollector.new.track (sampleObject 1 1 (ObjectData.integer 1))
  (gc.disable).untrack 1

/-- Scenario for C7: a tracked object whose payload is `Custom` but whose
`has_finalizer` field is `false`, with all debug flags clear. -/
def customPayloadGC : GCResult GarbageCollector :=
  GarbageCollector.new.track (sampleObject 1 1 ObjectData.custom)

/-- Scenario for C1: a collector tracking one object with refcount 2 and a
payload with no children, after `update_refs` and `subtract_refs` over
generation 0. -/
def subtractScenario : GCResult Collector := do
  let c ← Collector.new.track_object_fast (sampleObject 1 2 ObjectData.none)
  let c ← c.update_refs 0
  c.subtract_refs 0

/-- The C1 scenario's starting collector: one tracked object, id 1,
refcount 2, childless payload. -/
def c1ScenarioStart : Collector :=
  (Collector.new.track_object_fast (sampleObject 1 2 ObjectData.none)).toOption.getD
    Collector.new

/-- The C1 scenario after `update_refs 0`. -/
def c1ScenarioUpd : Collector :=
  (c1ScenarioStart.update_refs 0).toOption.getD Collector.new

/-- The C1 scenario after `update_refs 0` and `subtract_refs 0`. -/
def c1ScenarioSub : Collector :=
  (c1ScenarioUpd.subtract_refs 0).toOption.getD Collector.new

/-- Generation 0 of the C1 scenario's starting collector. -/
def c1ScenarioGen : Generation :=
  (c1ScenarioStart.generationManager.get_generation 0).getD (Generation.new 0)

/-- The unreachable list `move_unreachable 0` computes on the C1/C2
post-subtract state. -/
def c2MoveResult : List PyObject :=
  (c1ScenarioSub.move_unreachable 0).toOption.getD []

/-- The collector state after one successful `collect_generation 0` on a
fresh collector (the C10 witness state). -/
def c10End : Collector :=
  ((Collector.new.collect_generation 0 5).toOption.getD (0, Collector.new)).2

/-- Scenario for C4: objects 1 and 2 with a single weak reference 1 → 2. -/
def weakPairGraph : ObjectGraph :=
  { references :=
      [(1, [{ fromId := 1, toId := 2, referenceType := ReferenceType.weak }]),
       (2, [])] }

/-- The facade state of the C3 scenario: one tracked object, refcount 1. -/
def c3TrackedGC : GarbageCollector :=
  singleObjectGC.toOption.getD GarbageCollector.new

/-- The C3 scenario after its first `collect` (count and state). -/
def c3AfterFirst : Nat × GarbageCollector :=
  (c3TrackedGC.collect 5).toOption.getD (0, GarbageCollector.new)

/-- The C3 scenario after its second `collect` (count and state). -/
def c3AfterSecond : Nat × GarbageCollector :=
  (c3AfterFirst.2.collect 6).toOption.getD (0, GarbageCollector.new)

/-! Theorems: the worklist-loop development for `find_reachable`. -/

namespace ObjectGraph

theorem ptStep_fst_subset (acc : Finset ObjectId × List ObjectId) (t : ObjectId) :
    acc.1 ⊆ (ptStep acc t).1 := by
  unfold ptStep
  split
  · exact Finset.Subset.refl _
  · exact Finset.subset_insert _ _

theorem foldl_ptStep_fst_subset (tos : List ObjectId) :
    ∀ acc : Finset ObjectId × List ObjectId, acc.1 ⊆ (tos.foldl ptStep acc).1 := by
  induction tos with
  | nil => intro acc; exact Finset.Subset.refl _
  | cons t ts ih =>
      intro acc
      exact (ptStep_fst_subset acc t).trans (ih (ptStep acc t))

/-- The reachable set only grows across `processTargets`. -/
theorem processTargets_subset (reach : Finset ObjectId) (tos : List ObjectId) :
    reach ⊆ (processTargets reach tos).1 :=
  foldl_ptStep_fst_subset tos (reach, [])

/-- Characterization of the inner fold: it appends some block `δ` of
fresh ids to the queue and unions exactly `δ` into the reachable set;
`δ` is duplicate-free, disjoint from the starting set, drawn from the
targets, and together with the starting set covers all targets. -/
theorem foldl_ptStep_char (tos : List ObjectId) :
    ∀ (r : Finset ObjectId) (q : List ObjectId), ∃ δ : List ObjectId,
      tos.foldl ptStep (r, q) = (r ∪ δ.toFinset, q ++ δ) ∧
      δ.Nodup ∧ (∀ x ∈ δ, x ∈ tos ∧ x ∉ r) ∧
      (∀ t ∈ tos, t ∈ r ∪ δ.toFinset) := by
  induction tos with
  | nil =>
      intro r q
      refine ⟨[], by simp, by simp, by simp, by simp⟩
  | cons t ts ih =>
      intro r q
      rw [List.foldl_cons]
      by_cases ht : t ∈ r
      · have hstep : ptStep (r, q) t = (r, q) := by simp [ptStep, ht]
        rw [hstep]
        obtain ⟨δ, heq, hnd, hmem, hcov⟩ := ih r q
        refine ⟨δ, heq, hnd, ?_, ?_⟩
        · intro x hx
          exact ⟨List.mem_cons_of_mem _ (hmem x hx).1, (hmem x hx).2⟩
        · intro s hs
          rcases List.mem_cons.mp hs with h | h
          · subst h; exact Finset.mem_union_left _ ht
          · exact hcov s h
      · have hstep : ptStep (r, q) t = (insert t r, q ++ [t]) := by simp [ptStep, ht]
        rw [hstep]
        obtain ⟨δ, heq, hnd, hmem, hcov⟩ := ih (insert t r) (q ++ [t])
        have hset : insert t r ∪ δ.toFinset = r ∪ (t :: δ).toFinset := by
          simp only [List.toFinset_cons]
          rw [Finset.insert_union, Finset.union_insert]
        refine ⟨t :: δ, ?_, ?_, ?_, ?_⟩
        · rw [heq, hset]
          simp
        · refine List.nodup_cons.mpr ⟨?_, hnd⟩
          intro hcontra
          exact (hmem t hcontra).2 (Finset.mem_insert_self t r)
        · intro x hx
          rcases List.mem_cons.mp hx with h | h
          · subst h; exact ⟨List.mem_cons_self _ _, ht⟩
          · refine ⟨List.mem_cons_of_mem _ (hmem x h).1, ?_⟩
            intro hr
            exact (hmem x h).2 (Finset.mem_insert_of_mem hr)
        · intro s hs
          rcases List.mem_cons.mp hs with h | h
          · rw [h, ← hset]
            exact Finset.mem_union_left _ (Finset.mem_insert_self _ r)
          · rw [← hset]
            exact hcov s h

/-- `processTargets` in terms of the block of newly enqueued ids. -/
theorem processTargets_char (reach : Finset ObjectId) (tos : List ObjectId) :
    (processTargets reach tos).1 = reach ∪ (processTargets reach tos).2.toFinset ∧
    (processTargets reach tos).2.Nodup ∧
    (∀ x ∈ (processTargets reach tos).2, x ∈ tos ∧ x ∉ reach) ∧
    (∀ t ∈ tos, t ∈ (processTargets reach tos).1) := by
  obtain ⟨δ, heq, hnd, hmem, hcov⟩ := foldl_ptStep_char tos reach []
  have h1 : (processTargets reach tos).1 = reach ∪ δ.toFinset := by
    simp only [processTargets, heq]
  have h2 : (processTargets reach tos).2 = δ := by
    simp only [processTargets, heq]
    simp
  rw [h1, h2]
  exact ⟨rfl, hnd, hmem, hcov⟩

/-- The number of ids outside the reachable set plus the pending-queue
growth is conserved by `processTargets`: the decrease of the first term
pays for every enqueued id. -/
theorem processTargets_measure (U reach : Finset ObjectId) (tos : List ObjectId)
    (hsub : ∀ t ∈ tos, t ∈ U) :
    (U \ (processTargets reach tos).1).card + (processTargets reach tos).2.length
      = (U \ reach).card := by
  obtain ⟨hfst, hnd, hmem, -⟩ := processTargets_char reach tos
  have hδU : (processTargets reach tos).2.toFinset ⊆ U \ reach := by
    intro x hx
    have hx' := hmem x (List.mem_toFinset.mp hx)
    exact Finset.mem_sdiff.mpr ⟨hsub x hx'.1, hx'.2⟩
  have hsplit : U \ (processTargets reach tos).1
      = (U \ reach) \ (processTargets reach tos).2.toFinset := by
    rw [hfst]
    ext x
    simp only [Finset.mem_sdiff, Finset.mem_union]
    tauto
  have hcard := Finset.card_sdiff hδU
  have hlen : (processTargets reach tos).2.toFinset.card
      = (processTargets reach tos).2.length := List.toFinset_card_of_nodup hnd
  have hle := Finset.card_le_card hδU
  rw [hsplit, hcard]
  omega

/-- Every reference target of an object is among the graph's targets. -/
theorem refTargets_subset_allTargets (g : ObjectGraph) (objId : ObjectId) :
    ∀ t ∈ g.refTargets objId, t ∈ g.allTargets := by
  intro t ht
  unfold refTargets refsOf at ht
  unfold allTargets
  cases hfind : g.references.find? (fun p => p.1 == objId) with
  | none => rw [hfind] at ht; simp at ht
  | some p =>
      rw [hfind] at ht
      simp at ht
      have hp : p ∈ g.references := List.mem_of_find?_eq_some hfind
      rw [List.mem_toFinset]
      exact List.mem_flatMap.mpr ⟨p, hp, List.mem_map.mpr ht⟩

/-- Fuel-free specification of the worklist loop: whenever the fuel is at
least the loop measure, then provided every queued id is already in the
reachable set, every reachable id is either still queued or has all its
targets in the set, and every reachable id satisfies an edge-closed
predicate `P`, the loop only grows the set, its result satisfies `P`
pointwise, and the result is closed under edges. -/
theorem findReachableAux_spec (g : ObjectGraph) (P : ObjectId → Prop)
    (hP : ∀ a b, P a → Edge g a b → P b) :
    ∀ (fuel : Nat) (queue : List ObjectId) (reach : Finset ObjectId),
    (g.allTargets \ reach).card + queue.length ≤ fuel →
    (∀ x ∈ queue, x ∈ reach) →
    (∀ x ∈ reach, x ∈ queue ∨ ∀ t ∈ g.refTargets x, t ∈ reach) →
    (∀ x ∈ reach, P x) →
    reach ⊆ findReachableAux g fuel queue reach ∧
    (∀ x ∈ findReachableAux g fuel queue reach, P x) ∧
    (∀ x ∈ findReachableAux g fuel queue reach, ∀ t ∈ g.refTargets x,
      t ∈ findReachableAux g fuel queue reach) := by
  intro fuel
  induction fuel with
  | zero =>
      intro queue reach hfuel hq hproc hsound
      have hqnil : queue = [] := List.length_eq_zero.mp (by omega)
      subst hqnil
      simp only [findReachableAux]
      refine ⟨Finset.Subset.refl _, hsound, ?_⟩
      intro x hx t ht
      rcases hproc x hx with h | h
      · simp at h
      · exact h t ht
  | succ fuel ih =>
      intro queue reach hfuel hq hproc hsound
      cases queue with
      | nil =>
          simp only [findReachableAux]
          refine ⟨Finset.Subset.refl _, hsound, ?_⟩
          intro x hx t ht
          rcases hproc x hx with h | h
          · simp at h
          · exact h t ht
      | cons cur rest =>
          obtain ⟨hfst, -, hmem, hcov⟩ := processTargets_char reach (g.refTargets cur)
          have hsub : reach ⊆ (processTargets reach (g.refTargets cur)).1 :=
            processTargets_subset reach (g.refTargets cur)
          have hmeasure := processTargets_measure g.allTargets reach (g.refTargets cur)
            (refTargets_subset_allTargets g cur)
          have hfuel' : (g.allTargets \ (processTargets reach (g.refTargets cur)).1).card
              + (rest ++ (processTargets reach (g.refTargets cur)).2).length ≤ fuel := by
            simp only [List.length_append]
            simp only [List.length_cons] at hfuel
            omega
          have hq' : ∀ x ∈ rest ++ (processTargets reach (g.refTargets cur)).2,
              x ∈ (processTargets reach (g.refTargets cur)).1 := by
            intro x hx
            rcases List.mem_append.mp hx with h | h
            · exact hsub (hq x (List.mem_cons_of_mem _ h))
            · rw [hfst]
              exact Finset.mem_union_right _ (List.mem_toFinset.mpr h)
          have hproc' : ∀ x ∈ (processTargets reach (g.refTargets cur)).1,
              x ∈ rest ++ (processTargets reach (g.refTargets cur)).2 ∨
              ∀ t ∈ g.refTargets x, t ∈ (processTargets reach (g.refTargets cur)).1 := by
            intro x hx
            rw [hfst] at hx
            rcases Finset.mem_union.mp hx with h | h
            · rcases hproc x h with hin | hcl
              · rcases List.mem_cons.mp hin with hc | hc
                · right
                  intro t ht
                  rw [hc] at ht
                  exact hcov t ht
                · exact Or.inl (List.mem_append.mpr (Or.inl hc))
              · right
                intro t ht
                exact hsub (hcl t ht)
            · exact Or.inl (List.mem_append.mpr (Or.inr (List.mem_toFinset.mp h)))
          have hsound' : ∀ x ∈ (processTargets reach (g.refTargets cur)).1, P x := by
            intro x hx
            rw [hfst] at hx
            rcases Finset.mem_union.mp hx with h | h
            · exact hsound x h
            · have hxnew := hmem x (List.mem_toFinset.mp h)
              have hcur : P cur := hsound cur (hq cur (List.mem_cons_self _ _))
              exact hP cur x hcur hxnew.1
          obtain ⟨ha, hb, hc⟩ := ih _ _ hfuel' hq' hproc' hsound'
          simp only [findReachableAux]
          exact ⟨hsub.trans ha, hb, hc⟩

/-- `find_reachable` computes exactly the ids reachable from the roots
following reference edges of every type. -/
theorem find_reachable_iff (g : ObjectGraph) (roots : List ObjectId) (x : ObjectId) :
    x ∈ g.find_reachable roots ↔ ReachesFrom g roots x := by
  have hspec := findReachableAux_spec g (ReachesFrom g roots)
    (fun a b ha hab => by
      obtain ⟨rt, hrt, hr⟩ := ha
      exact ⟨rt, hrt, Relation.ReflTransGen.tail hr hab⟩)
    ((g.allTargets \ roots.toFinset).card + roots.length) roots roots.toFinset
    (le_refl _)
    (fun y hy => List.mem_toFinset.mpr hy)
    (fun y hy => Or.inl (List.mem_toFinset.mp hy))
    (fun y hy => ⟨y, List.mem_toFinset.mp hy, Relation.ReflTransGen.refl⟩)
  obtain ⟨hgrow, hsound, hclosed⟩ := hspec
  constructor
  · intro hx
    exact hsound x hx
  · rintro ⟨rt, hrt, hr⟩
    induction hr with
    | refl => exact hgrow (List.mem_toFinset.mpr hrt)
    | tail hstep hedge ih => exact hclosed _ ih _ hedge

end ObjectGraph


/-! General machinery for the collector theorems. -/

/-- An error produced by `List.foldlM` over `Except` comes from the step
function; in particular a step function that never reports
`CollectionInProgress` yields a fold that never does. -/
theorem foldlM_ne_error {α β : Type} (f : β → α → GCResult β) (e : GCError)
    (hf : ∀ b a, f b a ≠ .error e) :
    ∀ (l : List α) (b : β), l.foldlM f b ≠ .error e := by
  intro l
  induction l with
  | nil =>
      intro b h
      simp only [List.foldlM_nil] at h
      simp [pure, Except.pure] at h
  | cons a as ih =>
      intro b h
      rw [List.foldlM_cons] at h
      cases hfa : f b a with
      | error e' =>
          rw [hfa] at h
          simp [Bind.bind, Except.bind] at h
          exact hf b a (by rw [hfa, h])
      | ok b' =>
          rw [hfa] at h
          simp [Bind.bind, Except.bind] at h
          exact ih b' h

/-- A projection preserved by every successful step of a `foldlM` is
preserved by the whole fold. -/
theorem foldlM_preserves {α β γ : Type} (proj : β → γ) (f : β → α → GCResult β)
    (hf : ∀ b a b', f b a = .ok b' → proj b' = proj b) :
    ∀ (l : List α) (b b' : β), l.foldlM f b = .ok b' → proj b' = proj b := by
  intro l
  induction l with
  | nil =>
      intro b b' h
      simp only [List.foldlM_nil] at h
      simp [pure, Except.pure] at h
      rw [h]
  | cons a as ih =>
      intro b b' h
      rw [List.foldlM_cons] at h
      cases hfa : f b a with
      | error e' =>
          rw [hfa] at h
          simp [Bind.bind, Except.bind] at h
      | ok b1 =>
          rw [hfa] at h
          simp [Bind.bind, Except.bind] at h
          rw [ih b1 b' h]
          exact hf b a b1 hfa

/-- Reading back the generation just written. -/
theorem get_generation_setGeneration_self (gm : GenerationManager) (i : Nat)
    (gen x : Generation) (h : gm.get_generation i = Option.some gen) :
    (gm.setGeneration i x).get_generation i = Option.some x := by
  unfold GenerationManager.get_generation at h
  unfold GenerationManager.get_generation GenerationManager.setGeneration
  rw [List.get?_eq_getElem?] at h
  rw [List.get?_eq_getElem?]
  have hlt : i < gm.generations.length := by
    by_contra hge
    rw [List.getElem?_eq_none (by omega)] at h
    exact Option.noConfusion h
  exact List.getElem?_set_eq_of_lt x hlt

/-- Writing one generation leaves the others unchanged. -/
theorem get_generation_setGeneration_ne (gm : GenerationManager) (i j : Nat)
    (x : Generation) (hne : i ≠ j) :
    (gm.setGeneration i x).get_generation j = gm.get_generation j := by
  unfold GenerationManager.get_generation GenerationManager.setGeneration
  rw [List.get?_eq_getElem?, List.get?_eq_getElem?]
  exact List.getElem?_set_ne hne

/-- `update_refs` on a present generation: the explicit result. -/
theorem update_refs_eq (c : Collector) (g : Nat) (gen : Generation)
    (h : c.generationManager.get_generation g = Option.some gen) :
    c.update_refs g = .ok { c with generationManager := c.generationManager.setGeneration g { gen with objects := gen.objects.map Collector.updFn } } := by
  unfold Collector.update_refs
  rw [h]

/-- `subtract_refs` on a present generation: the explicit result. -/
theorem subtract_refs_eq (c : Collector) (g : Nat) (gen : Generation)
    (h : c.generationManager.get_generation g = Option.some gen) :
    c.subtract_refs g = .ok { c with generationManager := c.generationManager.setGeneration g { gen with objects := gen.objects.map Collector.subFn } } := by
  unfold Collector.subtract_refs
  rw [h]

/-- `restore_refs` on a present generation: the explicit result. -/
theorem restore_refs_eq (c : Collector) (g : Nat) (gen : Generation)
    (h : c.generationManager.get_generation g = Option.some gen) :
    c.restore_refs g = .ok { c with generationManager := c.generationManager.setGeneration g { gen with objects := gen.objects.map Collector.restFn } } := by
  unfold Collector.restore_refs
  rw [h]

/-- `move_unreachable` on a present generation: the explicit result. -/
theorem move_unreachable_eq (c : Collector) (g : Nat) (gen : Generation)
    (h : c.generationManager.get_generation g = Option.some gen) :
    c.move_unreachable g = .ok ((gen.objects.map Prod.snd).filter Collector.isShadowZero) := by
  unfold Collector.move_unreachable
  rw [h]

/-- The fold of `clear_unreachable` from any starting accumulator: it adds
the number of finalizer-free objects to the count, appends exactly the
finalizer-carrying objects to `uncollectable`, and only ever shrinks
`tracked_objects`. -/
theorem clear_fold_char : ∀ (l : List PyObject) (n : Nat) (c : Collector),
    ∃ tr, l.foldl Collector.clearStep (n, c)
      = (n + (l.filter (fun o => ¬ Collector.hasFinalizerOf o)).length,
         { c with trackedObjects := tr,
                  uncollectable := c.uncollectable ++ l.filter Collector.hasFinalizerOf }) := by
  intro l
  induction l with
  | nil =>
      intro n c
      refine ⟨c.trackedObjects, ?_⟩
      simp
  | cons o l ih =>
      intro n c
      rw [List.foldl_cons]
      by_cases hf : Collector.hasFinalizerOf o
      · have hstep : Collector.clearStep (n, c) o
            = (n, { c with uncollectable := c.uncollectable ++ [o] }) := by
          simp [Collector.clearStep, hf]
        rw [hstep]
        obtain ⟨tr, htr⟩ := ih n { c with uncollectable := c.uncollectable ++ [o] }
        refine ⟨tr, ?_⟩
        rw [htr]
        simp [hf]
      · have hstep : Collector.clearStep (n, c) o
            = (n + 1, { c with trackedObjects := (alRemove c.trackedObjects o.id).2 }) := by
          simp [Collector.clearStep, hf]
        rw [hstep]
        obtain ⟨tr, htr⟩ :=
          ih (n + 1) { c with trackedObjects := (alRemove c.trackedObjects o.id).2 }
        refine ⟨tr, ?_⟩
        rw [htr]
        simp [hf]
        omega

/-- `clear_unreachable` as a whole. -/
theorem clear_unreachable_char (c : Collector) (l : List PyObject) :
    ∃ tr, c.clear_unreachable l
      = ((l.filter (fun o => ¬ Collector.hasFinalizerOf o)).length,
         { c with trackedObjects := tr,
                  uncollectable := c.uncollectable ++ l.filter Collector.hasFinalizerOf }) := by
  obtain ⟨tr, htr⟩ := clear_fold_char l 0 c
  refine ⟨tr, ?_⟩
  rw [Collector.clear_unreachable, htr]
  simp

/-- After the update/subtract prefix, shadow-zero-ness of an entry is a
function of its head presence and original refcount alone. -/
theorem isShadowZero_subFn_updFn (p : ObjectId × PyObject) :
    Collector.isShadowZero (Collector.subFn (Collector.updFn p)).2
      = (p.2.gcHead.isSome && (shadowAfterSubtract p.2.refcount == 0)) := by
  obtain ⟨k, o⟩ := p
  cases ho : o.gcHead with
  | none =>
      unfold Collector.updFn Collector.subFn Collector.isShadowZero
      simp [ho]
  | some h =>
      unfold Collector.updFn
      simp only [ho]
      unfold Collector.subFn Collector.isShadowZero
      simp only [PyGCHead.set_refs, PyGCHead.set_collecting, PyGCHead.get_refs,
        PyObject.get_refcount, shadowAfterSubtract]
      by_cases hrc : 0 < o.refcount
      · have hrci : (Int.ofNat o.refcount) > 0 := Int.ofNat_pos.mpr hrc
        simp [hrc, hrci, PyGCHead.get_refs]
      · have hrci : ¬ (Int.ofNat o.refcount) > 0 := fun hcon => hrc (Int.ofNat_pos.mp hcon)
        simp [hrc, hrci, PyGCHead.get_refs]

/-- The update/subtract prefix does not change an entry's payload data. -/
theorem data_subFn_updFn (p : ObjectId × PyObject) :
    (Collector.subFn (Collector.updFn p)).2.data = p.2.data := by
  obtain ⟨k, o⟩ := p
  cases ho : o.gcHead with
  | none => unfold Collector.updFn Collector.subFn; simp [ho]
  | some h =>
      unfold Collector.updFn
      simp only [ho]
      unfold Collector.subFn
      split <;> (try split) <;> simp_all

/-- `pipeFn` preserves head presence, refcount and payload data. -/
theorem pipeFn_preserves (p : ObjectId × PyObject) :
    (pipeFn p).2.gcHead.isSome = p.2.gcHead.isSome ∧
    (pipeFn p).2.refcount = p.2.refcount ∧
    (pipeFn p).2.data = p.2.data := by
  obtain ⟨k, o⟩ := p
  unfold pipeFn
  cases ho : o.gcHead with
  | none => unfold Collector.updFn Collector.subFn Collector.restFn; simp [ho]
  | some h =>
      unfold Collector.updFn
      simp only [ho]
      unfold Collector.subFn
      split <;> (try split) <;> simp_all [Collector.restFn]

/-- Payload-equal objects agree on the collector's finalizer test. -/
theorem hasFinalizerOf_congr (o o' : PyObject) (h : o.data = o'.data) :
    Collector.hasFinalizerOf o = Collector.hasFinalizerOf o' := by
  unfold Collector.hasFinalizerOf
  rw [h]

/-- A full pass over already-piped entries counts the same number of
collected objects: `collectMainCount` is invariant under `pipeFn`. -/
theorem collectMainCount_pipeFn (objs : List (ObjectId × PyObject)) :
    collectMainCount (objs.map pipeFn) = collectMainCount objs := by
  unfold collectMainCount
  simp only [List.map_map, List.filter_filter, List.filter_map, List.length_map]
  congr 1
  apply List.filter_congr
  intro pr hpr
  simp only [Function.comp]
  have h1 := isShadowZero_subFn_updFn (pipeFn pr)
  have h2 := isShadowZero_subFn_updFn pr
  have hp := pipeFn_preserves pr
  have hd : (Collector.subFn (Collector.updFn (pipeFn pr))).2.data
      = (Collector.subFn (Collector.updFn pr)).2.data := by
    rw [data_subFn_updFn, data_subFn_updFn, hp.2.2]
  rw [h1, h2, hp.1, hp.2.1]
  simp only [hasFinalizerOf_congr (Collector.subFn (Collector.updFn (pipeFn pr))).2
    (Collector.subFn (Collector.updFn pr)).2 hd]

/-- `setGeneration` preserves the number of generations. -/
theorem setGeneration_length (gm : GenerationManager) (i : Nat) (x : Generation) :
    (gm.setGeneration i x).generations.length = gm.generations.length := by
  unfold GenerationManager.setGeneration
  simp

/-- Successful `start_collection`: the previous state was idle, the index
is in range, and only `collecting_generation` changes. -/
theorem start_collection_inv (gm gm' : GenerationManager) (idx : Nat)
    (h : gm.start_collection idx = .ok gm') :
    gm.collectingGeneration = Option.none ∧ idx < gm.generations.length ∧
    gm' = { gm with collectingGeneration := Option.some idx } := by
  unfold GenerationManager.start_collection at h
  by_cases hc : gm.collectingGeneration.isSome
  · rw [if_pos hc] at h
    exact absurd h (by simp)
  · rw [if_neg hc] at h
    by_cases hlen : idx ≥ gm.generations.length
    · rw [if_pos hlen] at h
      exact absurd h (by simp)
    · rw [if_neg hlen] at h
      refine ⟨?_, by omega, (Except.ok.inj h).symm⟩
      cases hcg : gm.collectingGeneration with
      | none => rfl
      | some x => rw [hcg] at hc; simp at hc

/-- A successful `mergeInnerStep` touches only the target generation. -/
theorem mergeInnerStep_preserves (t : Nat) (a : Collector) (obj : PyObject)
    (a' : Collector) (h : Collector.mergeInnerStep t a obj = .ok a') :
    a'.trackedObjects = a.trackedObjects ∧
    a'.collectingObjects = a.collectingObjects ∧
    a'.uncollectable = a.uncollectable ∧
    a'.debugFlags = a.debugFlags ∧
    a'.generationManager.collectingGeneration
      = a.generationManager.collectingGeneration ∧
    a'.generationManager.generations.length
      = a.generationManager.generations.length ∧
    ∀ j, j ≠ t → a'.generationManager.get_generation j
      = a.generationManager.get_generation j := by
  unfold Collector.mergeInnerStep at h
  cases hg : a.generationManager.get_generation t with
  | none =>
      rw [hg] at h
      exact absurd h (by simp)
  | some gt =>
      rw [hg] at h
      dsimp only at h
      cases hao : gt.add_object obj with
      | error e =>
          rw [hao] at h
          simp [Bind.bind, Except.bind] at h
      | ok gt' =>
          rw [hao] at h
          simp [Bind.bind, Except.bind, pure, Except.pure] at h
          rw [← h]
          refine ⟨rfl, rfl, rfl, rfl, rfl, setGeneration_length _ _ _, ?_⟩
          intro j hj
          exact get_generation_setGeneration_ne _ _ _ _ (fun he => hj he.symm)

/-- The inner merge fold preserves everything but the target generation. -/
theorem mergeInner_fold_preserves (t : Nat) (l : List PyObject) (a a' : Collector)
    (h : l.foldlM (Collector.mergeInnerStep t) a = .ok a') :
    a'.trackedObjects = a.trackedObjects ∧
    a'.collectingObjects = a.collectingObjects ∧
    a'.uncollectable = a.uncollectable ∧
    a'.debugFlags = a.debugFlags ∧
    a'.generationManager.collectingGeneration
      = a.generationManager.collectingGeneration ∧
    a'.generationManager.generations.length
      = a.generationManager.generations.length ∧
    ∀ j, j ≠ t → a'.generationManager.get_generation j
      = a.generationManager.get_generation j := by
  have hfields := foldlM_preserves
    (fun c => (c.trackedObjects, c.collectingObjects, c.uncollectable, c.debugFlags,
      c.generationManager.collectingGeneration, c.generationManager.generations.length))
    (Collector.mergeInnerStep t)
    (fun b x b' hb => by
      obtain ⟨h1, h2, h3, h4, h5, h6, -⟩ := mergeInnerStep_preserves t b x b' hb
      simp [h1, h2, h3, h4, h5, h6])
    l a a' h
  simp only [Prod.mk.injEq] at hfields
  refine ⟨hfields.1, hfields.2.1, hfields.2.2.1, hfields.2.2.2.1,
    hfields.2.2.2.2.1, hfields.2.2.2.2.2, ?_⟩
  intro j hj
  exact foldlM_preserves (fun c => c.generationManager.get_generation j)
    (Collector.mergeInnerStep t)
    (fun b x b' hb => (mergeInnerStep_preserves t b x b' hb).2.2.2.2.2.2 j hj)
    l a a' h

/-- A successful `mergeOuterStep` on source generation `i`: generation `i`
is drained, every generation other than `i` and the target is untouched,
and the collector's other fields are unchanged. -/
theorem mergeOuterStep_inv (t : Nat) (acc : Collector) (i : Nat) (acc' : Collector)
    (gi : Generation) (hgi : acc.generationManager.get_generation i = Option.some gi)
    (h : Collector.mergeOuterStep t acc i = .ok acc') :
    acc'.generationManager.get_generation i
      = (if i = t then acc'.generationManager.get_generation i
         else Option.some { gi with objects := [], count := 0 }) ∧
    (∀ j, j ≠ t → j ≠ i → acc'.generationManager.get_generation j
      = acc.generationManager.get_generation j) ∧
    acc'.trackedObjects = acc.trackedObjects ∧
    acc'.collectingObjects = acc.collectingObjects ∧
    acc'.uncollectable = acc.uncollectable ∧
    acc'.debugFlags = acc.debugFlags ∧
    acc'.generationManager.collectingGeneration
      = acc.generationManager.collectingGeneration ∧
    acc'.generationManager.generations.length
      = acc.generationManager.generations.length := by
  unfold Collector.mergeOuterStep at h
  rw [hgi] at h
  dsimp only at h
  obtain ⟨h1, h2, h3, h4, h5, h6, h7⟩ := mergeInner_fold_preserves t _ _ _ h
  dsimp only at h1 h2 h3 h4 h5 h6 h7
  have hset : ∀ j, j ≠ i →
      ({ acc with generationManager :=
        acc.generationManager.setGeneration i (gi.clear).2 } : Collector).generationManager.get_generation j
      = acc.generationManager.get_generation j := by
    intro j hj
    exact get_generation_setGeneration_ne _ _ _ _ (fun he => hj he.symm)
  refine ⟨?_, ?_, h1, h2, h3, h4, ?_, ?_⟩
  · by_cases hit : i = t
    · rw [if_pos hit]
    · rw [if_neg hit]
      rw [h7 i hit]
      exact get_generation_setGeneration_self acc.generationManager i gi _ hgi
  · intro j hjt hji
    rw [h7 j hjt]
    exact hset j hji
  · rw [h5]
    rfl
  · rw [h6]
    exact setGeneration_length _ _ _

/-- `merge_younger_generations 2` drains generations 0 and 1 and leaves
every other collector field unchanged. -/
theorem merge2_inv (c cB : Collector) (g0 g1 : Generation)
    (h0 : c.generationManager.get_generation 0 = Option.some g0)
    (h1 : c.generationManager.get_generation 1 = Option.some g1)
    (h : c.merge_younger_generations 2 = .ok cB) :
    cB.generationManager.get_generation 0
      = Option.some { g0 with objects := [], count := 0 } ∧
    cB.generationManager.get_generation 1
      = Option.some { g1 with objects := [], count := 0 } ∧
    cB.trackedObjects = c.trackedObjects ∧
    cB.collectingObjects = c.collectingObjects ∧
    cB.uncollectable = c.uncollectable ∧
    cB.debugFlags = c.debugFlags ∧
    cB.generationManager.collectingGeneration
      = c.generationManager.collectingGeneration ∧
    cB.generationManager.generations.length
      = c.generationManager.generations.length := by
  unfold Collector.merge_younger_generations at h
  have hrange : List.range 2 = [0, 1] := by decide
  rw [hrange, List.foldlM_cons] at h
  cases hs0 : Collector.mergeOuterStep 2 c 0 with
  | error e =>
      rw [hs0] at h
      simp [Bind.bind, Except.bind] at h
  | ok s0 =>
      rw [hs0] at h
      simp only [Bind.bind, Except.bind] at h
      rw [List.foldlM_cons] at h
      cases hs1 : Collector.mergeOuterStep 2 s0 1 with
      | error e =>
          rw [hs1] at h
          simp [Bind.bind, Except.bind] at h
      | ok s1 =>
          rw [hs1] at h
          simp only [Bind.bind, Except.bind] at h
          rw [List.foldlM_nil] at h
          simp [pure, Except.pure] at h
          obtain ⟨i00, i01, i02, i03, i04, i05, i06, i07⟩ :=
            mergeOuterStep_inv 2 c 0 s0 g0 h0 hs0
          rw [if_neg (by decide)] at i00
          have hg1s0 : s0.generationManager.get_generation 1
              = Option.some g1 := by
            rw [i01 1 (by decide) (by decide)]
            exact h1
          obtain ⟨i10, i11, i12, i13, i14, i15, i16, i17⟩ :=
            mergeOuterStep_inv 2 s0 1 s1 g1 hg1s0 hs1
          rw [if_neg (by decide)] at i10
          have hcb : s1 = cB := h
          rw [← hcb]
          refine ⟨?_, i10, by rw [i12, i02], by rw [i13, i03], by rw [i14, i04],
            by rw [i15, i05], by rw [i16, i06], by rw [i17, i07]⟩
          rw [i11 0 (by decide) (by decide)]
          exact i00

/-- `mergeOuterStep` on an already-empty source generation only rewrites
that generation in place. -/
theorem mergeOuterStep_empty (t : Nat) (acc : Collector) (i : Nat)
    (gi : Generation)
    (hgi : acc.generationManager.get_generation i = Option.some gi)
    (hempty : gi.objects = []) :
    Collector.mergeOuterStep t acc i = .ok { acc with generationManager := acc.generationManager.setGeneration i { gi with objects := [], count := 0 } } := by
  unfold Collector.mergeOuterStep
  rw [hgi]
  dsimp only
  have hfst : (gi.clear).1 = [] := by
    simp [Generation.clear, hempty]
  rw [hfst, List.foldlM_nil]
  rfl

/-- `merge_younger_generations 2` over already-empty younger generations:
the explicit (essentially unchanged) result. -/
theorem merge2_empty (c : Collector) (g0 g1 : Generation)
    (h0 : c.generationManager.get_generation 0 = Option.some g0)
    (h00 : g0.objects = [])
    (h1 : c.generationManager.get_generation 1 = Option.some g1)
    (h10 : g1.objects = []) :
    c.merge_younger_generations 2 = .ok { c with generationManager := (c.generationManager.setGeneration 0 { g0 with objects := [], count := 0 }).setGeneration 1 { g1 with objects := [], count := 0 } } := by
  unfold Collector.merge_younger_generations
  have hrange : List.range 2 = [0, 1] := by decide
  rw [hrange, List.foldlM_cons]
  rw [mergeOuterStep_empty 2 c 0 g0 h0 h00]
  simp only [Bind.bind, Except.bind]
  rw [List.foldlM_cons]
  have h1' : ({ c with generationManager := c.generationManager.setGeneration 0 { g0 with objects := [], count := 0 } } : Collector).generationManager.get_generation 1
      = Option.some g1 := by
    dsimp only
    rw [get_generation_setGeneration_ne _ _ _ _ (by decide)]
    exact h1
  rw [mergeOuterStep_empty 2 _ 1 g1 h1' h10]
  simp only [Bind.bind, Except.bind]
  rw [List.foldlM_nil]
  rfl

/-- Writing the same slot twice keeps only the second write. -/
theorem setGeneration_setGeneration (gm : GenerationManager) (i : Nat)
    (a b : Generation) :
    (gm.setGeneration i a).setGeneration i b = gm.setGeneration i b := by
  unfold GenerationManager.setGeneration
  simp [List.set_set]

/-- `collect_main` over an empty generation reports zero and changes
nothing. -/
theorem collect_main_empty (c : Collector) (g : Nat) (gen : Generation)
    (hget : c.generationManager.get_generation g = Option.some gen)
    (he : gen.is_empty = true) :
    c.collect_main g = .ok (0, c) := by
  unfold Collector.collect_main
  rw [hget]
  dsimp only
  rw [if_pos he]

/-- `collect_main` over a non-empty generation: it reports
`collectMainCount` of the generation's entries, pipes every entry through
`pipeFn`, and touches only `tracked_objects` and `uncollectable` besides.
-/
theorem collect_main_char (c : Collector) (g : Nat) (gen : Generation)
    (hget : c.generationManager.get_generation g = Option.some gen)
    (hne : gen.is_empty = false) :
    ∃ tr, c.collect_main g = .ok (collectMainCount gen.objects,
      { c with generationManager := c.generationManager.setGeneration g { gen with objects := gen.objects.map pipeFn }, trackedObjects := tr, uncollectable := c.uncollectable ++ ((((gen.objects.map Collector.updFn).map Collector.subFn).map Prod.snd).filter Collector.isShadowZero).filter Collector.hasFinalizerOf }) := by
  have hupd := update_refs_eq c g gen hget
  have hget1 : ({ c with generationManager := c.generationManager.setGeneration g { gen with objects := gen.objects.map Collector.updFn } } : Collector).generationManager.get_generation g
      = Option.some { gen with objects := gen.objects.map Collector.updFn } := by
    dsimp only
    exact get_generation_setGeneration_self _ g gen _ hget
  have hsub := subtract_refs_eq _ g _ hget1
  have hget2 : ({ c with generationManager := (c.generationManager.setGeneration g { gen with objects := gen.objects.map Collector.updFn }).setGeneration g { gen with objects := (gen.objects.map Collector.updFn).map Collector.subFn } } : Collector).generationManager.get_generation g
      = Option.some { gen with objects := (gen.objects.map Collector.updFn).map Collector.subFn } := by
    dsimp only
    exact get_generation_setGeneration_self _ g _ _ hget1
  have hmove := move_unreachable_eq _ g _ hget2
  obtain ⟨tr, hclear⟩ := clear_unreachable_char
    ({ c with generationManager := (c.generationManager.setGeneration g { gen with objects := gen.objects.map Collector.updFn }).setGeneration g { gen with objects := (gen.objects.map Collector.updFn).map Collector.subFn } } : Collector)
    ((((gen.objects.map Collector.updFn).map Collector.subFn).map Prod.snd).filter Collector.isShadowZero)
  refine ⟨tr, ?_⟩
  unfold Collector.collect_main
  rw [hget]
  dsimp only
  rw [if_neg (by rw [hne]; exact Bool.false_ne_true)]
  rw [hupd]
  simp only [Bind.bind, Except.bind]
  rw [hsub]
  simp only [Bind.bind, Except.bind]
  rw [hmove]
  simp only [Bind.bind, Except.bind]
  rw [hclear]
  dsimp only
  rw [restore_refs_eq _ g _ (by dsimp only; exact hget2)]
  simp only [Bind.bind, Except.bind, pure, Except.pure]
  rw [Except.ok.injEq, Prod.mk.injEq]
  refine ⟨rfl, ?_⟩
  rw [Collector.mk.injEq]
  refine ⟨?_, rfl, rfl, rfl, rfl⟩
  rw [setGeneration_setGeneration, setGeneration_setGeneration]
  congr 1
  rw [Generation.mk.injEq]
  refine ⟨rfl, rfl, rfl, ?_⟩
  simp [List.map_map, pipeFn, Function.comp]

/-- `add_object` never reports a collection in progress. -/
theorem add_object_ne_CIP (g : Generation) (obj : PyObject) :
    g.add_object obj ≠ .error GCError.collectionInProgress := by
  unfold Generation.add_object
  split <;> simp

/-- `mergeInnerStep` never reports a collection in progress. -/
theorem mergeInnerStep_ne_CIP (t : Nat) (a : Collector) (obj : PyObject) :
    Collector.mergeInnerStep t a obj ≠ .error GCError.collectionInProgress := by
  unfold Collector.mergeInnerStep
  cases hg : a.generationManager.get_generation t with
  | none => simp
  | some gt =>
      cases hao : gt.add_object obj with
      | error e =>
          simp only [Bind.bind, Except.bind, hao]
          intro hcon
          exact add_object_ne_CIP gt obj (by rw [hao, Except.error.inj hcon])
      | ok gt' => simp [Bind.bind, Except.bind, hao, pure, Except.pure]

/-- `mergeOuterStep` never reports a collection in progress. -/
theorem mergeOuterStep_ne_CIP (t : Nat) (acc : Collector) (i : Nat) :
    Collector.mergeOuterStep t acc i ≠ .error GCError.collectionInProgress := by
  unfold Collector.mergeOuterStep
  cases hg : acc.generationManager.get_generation i with
  | none => simp
  | some gi =>
      dsimp only
      exact foldlM_ne_error _ _ (fun b a => mergeInnerStep_ne_CIP t b a) _ _

/-- `merge_younger_generations` never reports a collection in progress. -/
theorem merge_ne_CIP (c : Collector) (t : Nat) :
    c.merge_younger_generations t ≠ .error GCError.collectionInProgress := by
  unfold Collector.merge_younger_generations
  exact foldlM_ne_error _ _ (fun b a => mergeOuterStep_ne_CIP t b a) _ _

/-- The four in-place phases only ever fail with `Internal`. -/
theorem update_refs_ne_CIP (c : Collector) (g : Nat) :
    c.update_refs g ≠ .error GCError.collectionInProgress := by
  unfold Collector.update_refs
  cases c.generationManager.get_generation g <;> simp

theorem subtract_refs_ne_CIP (c : Collector) (g : Nat) :
    c.subtract_refs g ≠ .error GCError.collectionInProgress := by
  unfold Collector.subtract_refs
  cases c.generationManager.get_generation g <;> simp

theorem move_unreachable_ne_CIP (c : Collector) (g : Nat) :
    c.move_unreachable g ≠ .error GCError.collectionInProgress := by
  unfold Collector.move_unreachable
  cases c.generationManager.get_generation g <;> simp

theorem restore_refs_ne_CIP (c : Collector) (g : Nat) :
    c.restore_refs g ≠ .error GCError.collectionInProgress := by
  unfold Collector.restore_refs
  cases c.generationManager.get_generation g <;> simp

/-- `collect_main` never reports a collection in progress. -/
theorem collect_main_ne_CIP (c : Collector) (g : Nat) :
    c.collect_main g ≠ .error GCError.collectionInProgress := by
  unfold Collector.collect_main
  cases hg : c.generationManager.get_generation g with
  | none => simp
  | some gen =>
      dsimp only
      by_cases he : gen.is_empty
      · rw [if_pos he]
        simp
      · rw [if_neg he]
        cases hu : c.update_refs g with
        | error e =>
            simp only [Bind.bind, Except.bind, hu]
            intro hcon
            exact update_refs_ne_CIP c g (by rw [hu, Except.error.inj hcon])
        | ok c1 =>
            simp only [Bind.bind, Except.bind, hu]
            cases hs : c1.subtract_refs g with
            | error e =>
                simp only [hs]
                intro hcon
                exact subtract_refs_ne_CIP c1 g (by rw [hs, Except.error.inj hcon])
            | ok c2 =>
                simp only [hs]
                cases hm : c2.move_unreachable g with
                | error e =>
                    simp only [hm]
                    intro hcon
                    exact move_unreachable_ne_CIP c2 g (by rw [hm, Except.error.inj hcon])
                | ok l =>
                    simp only [hm]
                    cases hr : (c2.clear_unreachable l).2.restore_refs g with
                    | error e =>
                        simp only [hr]
                        intro hcon
                        exact restore_refs_ne_CIP _ g (by rw [hr, Except.error.inj hcon])
                    | ok c4 =>
                        simp [hr, pure, Except.pure]

/-- `promoteStep` never reports a collection in progress. -/
theorem promoteStep_ne_CIP (fromGen : Nat) (acc : GenerationManager) (obj : PyObject) :
    GenerationManager.promoteStep fromGen acc obj
      ≠ .error GCError.collectionInProgress := by
  unfold GenerationManager.promoteStep
  cases hg : acc.get_generation (fromGen + 1) with
  | none => simp
  | some tg =>
      cases hao : tg.add_object obj with
      | error e =>
          simp only [Bind.bind, Except.bind, hao]
          intro hcon
          exact add_object_ne_CIP tg obj (by rw [hao, Except.error.inj hcon])
      | ok tg' => simp [Bind.bind, Except.bind, hao, pure, Except.pure]

/-- `promote_generation` never reports a collection in progress. -/
theorem promote_ne_CIP (gm : GenerationManager) (fromGen : Nat) :
    gm.promote_generation fromGen ≠ .error GCError.collectionInProgress := by
  unfold GenerationManager.promote_generation
  by_cases hge : fromGen ≥ gm.generations.length - 1
  · rw [if_pos hge]
    simp
  · rw [if_neg hge]
    cases hg : gm.get_generation fromGen with
    | none => simp
    | some g =>
        dsimp only
        exact foldlM_ne_error _ _ (fun b a => promoteStep_ne_CIP fromGen b a) _ _

/-- Field preservation of `mergeOuterStep`, hypothesis-free. -/
theorem mergeOuterStep_fields (t : Nat) (acc : Collector) (i : Nat)
    (acc' : Collector) (h : Collector.mergeOuterStep t acc i = .ok acc') :
    acc'.trackedObjects = acc.trackedObjects ∧
    acc'.collectingObjects = acc.collectingObjects ∧
    acc'.uncollectable = acc.uncollectable ∧
    acc'.debugFlags = acc.debugFlags ∧
    acc'.generationManager.collectingGeneration
      = acc.generationManager.collectingGeneration ∧
    acc'.generationManager.generations.length
      = acc.generationManager.generations.length := by
  cases hgi : acc.generationManager.get_generation i with
  | none =>
      unfold Collector.mergeOuterStep at h
      rw [hgi] at h
      exact absurd h (by simp)
  | some gi =>
      obtain ⟨-, -, h3, h4, h5, h6, h7, h8⟩ := mergeOuterStep_inv t acc i acc' gi hgi h
      exact ⟨h3, h4, h5, h6, h7, h8⟩

/-- Field preservation of `merge_younger_generations`. -/
theorem merge_fields (c : Collector) (t : Nat) (cB : Collector)
    (h : c.merge_younger_generations t = .ok cB) :
    cB.trackedObjects = c.trackedObjects ∧
    cB.collectingObjects = c.collectingObjects ∧
    cB.uncollectable = c.uncollectable ∧
    cB.debugFlags = c.debugFlags ∧
    cB.generationManager.collectingGeneration
      = c.generationManager.collectingGeneration ∧
    cB.generationManager.generations.length
      = c.generationManager.generations.length := by
  unfold Collector.merge_younger_generations at h
  have hp := foldlM_preserves
    (fun c => (c.trackedObjects, c.collectingObjects, c.uncollectable, c.debugFlags,
      c.generationManager.collectingGeneration, c.generationManager.generations.length))
    (Collector.mergeOuterStep t)
    (fun b x b' hb => by
      obtain ⟨h1, h2, h3, h4, h5, h6⟩ := mergeOuterStep_fields t b x b' hb
      simp [h1, h2, h3, h4, h5, h6])
    (List.range t) c cB h
  simp only [Prod.mk.injEq] at hp
  exact ⟨hp.1, hp.2.1, hp.2.2.1, hp.2.2.2.1, hp.2.2.2.2.1, hp.2.2.2.2.2⟩

/-- What a successful `collect_main` preserves, and how `uncollectable`
may grow: only by objects the collector's finalizer test accepts. -/
theorem collect_main_inv (c : Collector) (g : Nat) (n : Nat) (c₁ : Collector)
    (h : c.collect_main g = .ok (n, c₁)) :
    c₁.collectingObjects = c.collectingObjects ∧
    c₁.debugFlags = c.debugFlags ∧
    c₁.generationManager.collectingGeneration
      = c.generationManager.collectingGeneration ∧
    c₁.generationManager.generations.length
      = c.generationManager.generations.length ∧
    ∀ o ∈ c₁.uncollectable, o ∈ c.uncollectable ∨ Collector.hasFinalizerOf o = true := by
  cases hg : c.generationManager.get_generation g with
  | none =>
      unfold Collector.collect_main at h
      rw [hg] at h
      exact absurd h (by simp)
  | some gen =>
      by_cases he : gen.is_empty
      · rw [collect_main_empty c g gen hg he] at h
        have hn := Except.ok.inj h
        rw [Prod.mk.injEq] at hn
        rw [← hn.2]
        exact ⟨rfl, rfl, rfl, rfl, fun o ho => Or.inl ho⟩
      · obtain ⟨tr, hchar⟩ :=
          collect_main_char c g gen hg (Bool.not_eq_true _ ▸ Bool.of_not_eq_true he)
        rw [hchar] at h
        have hn := Except.ok.inj h
        rw [Prod.mk.injEq] at hn
        rw [← hn.2]
        refine ⟨rfl, rfl, ?_, ?_, ?_⟩
        · dsimp only
          rfl
        · dsimp only
          exact setGeneration_length _ _ _
        · intro o ho
          dsimp only at ho
          rcases List.mem_append.mp ho with hmem | hmem
          · exact Or.inl hmem
          · exact Or.inr (List.of_mem_filter hmem)

/-- What a successful `collect_generation` guarantees: the manager is left
idle, the collection-in-progress scratch set and debug flags are
untouched, and `uncollectable` grows only by objects with a finalizer. -/
theorem collect_generation_inv (c : Collector) (g : Nat) (fid : ObjectId)
    (n : Nat) (c' : Collector)
    (h : c.collect_generation g fid = .ok (n, c')) :
    c'.generationManager.collectingGeneration = Option.none ∧
    c'.collectingObjects = c.collectingObjects ∧
    c'.debugFlags = c.debugFlags ∧
    ∀ o ∈ c'.uncollectable, o ∈ c.uncollectable ∨ Collector.hasFinalizerOf o = true := by
  unfold Collector.collect_generation at h
  by_cases hcont : c.collectingObjects.contains fid
  · rw [if_pos hcont] at h
    exact absurd h (by simp)
  · rw [if_neg hcont] at h
    cases hstart : c.generationManager.start_collection g with
    | error e =>
        rw [hstart] at h
        exact absurd h (by simp [Bind.bind, Except.bind])
    | ok gm₁ =>
        rw [hstart] at h
        simp only [Bind.bind, Except.bind] at h
        cases hga : ({ c with generationManager := gm₁ } : Collector).generationManager.get_generation g with
        | none =>
            rw [hga] at h
            exact absurd h (by simp)
        | some genA =>
            rw [hga] at h
            dsimp only at h
            cases hmerge : ({ c with generationManager := gm₁ } : Collector).merge_younger_generations g with
            | error e =>
                rw [hmerge] at h
                exact absurd h (by simp [Bind.bind, Except.bind])
            | ok cB =>
                rw [hmerge] at h
                simp only [Bind.bind, Except.bind] at h
                obtain ⟨mf1, mf2, mf3, mf4, -, -⟩ := merge_fields _ g cB hmerge
                cases hmain : cB.collect_main g with
                | error e =>
                    rw [hmain] at h
                    exact absurd h (by simp)
                | ok p =>
                    obtain ⟨m, cC⟩ := p
                    rw [hmain] at h
                    simp only at h
                    obtain ⟨cm1, cm2, -, -, cm5⟩ := collect_main_inv cB g m cC hmain
                    by_cases hg2 : g < 2
                    · rw [if_pos hg2] at h
                      cases hprom : cC.generationManager.promote_generation g with
                      | error e =>
                          rw [hprom] at h
                          exact absurd h (by simp [Bind.bind, Except.bind])
                      | ok gm₂ =>
                          rw [hprom] at h
                          simp only [Bind.bind, Except.bind, pure, Except.pure] at h
                          have hpair := Except.ok.inj h
                          rw [Prod.mk.injEq] at hpair
                          rw [← hpair.2]
                          refine ⟨rfl, ?_, ?_, ?_⟩
                          · dsimp only
                            rw [cm1, mf2]
                          · dsimp only
                            rw [cm2, mf4]
                          · intro o ho
                            dsimp only at ho
                            rcases cm5 o ho with hold | hfin
                            · rw [mf3] at hold
                              exact Or.inl hold
                            · exact Or.inr hfin
                    · rw [if_neg hg2] at h
                      simp only [Bind.bind, Except.bind, pure, Except.pure] at h
                      have hpair := Except.ok.inj h
                      rw [Prod.mk.injEq] at hpair
                      rw [← hpair.2]
                      refine ⟨rfl, ?_, ?_, ?_⟩
                      · dsimp only
                        rw [cm1, mf2]
                      · dsimp only
                        rw [cm2, mf4]
                      · intro o ho
                        dsimp only at ho
                        rcases cm5 o ho with hold | hfin
                        · rw [mf3] at hold
                          exact Or.inl hold
                        · exact Or.inr hfin

/-- `start_collection` on an idle manager never reports a collection in
progress. -/
theorem start_collection_ne_CIP (gm : GenerationManager) (idx : Nat)
    (hcg : gm.collectingGeneration = Option.none) :
    gm.start_collection idx ≠ .error GCError.collectionInProgress := by
  unfold GenerationManager.start_collection
  rw [hcg]
  simp only [Option.isSome_none, Bool.false_eq_true, if_false]
  split <;> simp

/-- `collect_generation` on an idle collector with an empty
collection-in-progress scratch set never reports a collection in
progress. -/
theorem collect_generation_ne_CIP (c : Collector) (g : Nat) (fid : ObjectId)
    (hcObjs : c.collectingObjects = [])
    (hcg : c.generationManager.collectingGeneration = Option.none) :
    c.collect_generation g fid ≠ .error GCError.collectionInProgress := by
  unfold Collector.collect_generation
  have hcont : (c.collectingObjects.contains fid) = false := by
    rw [hcObjs]
    rfl
  rw [if_neg (by rw [hcont]; exact Bool.false_ne_true)]
  cases hstart : c.generationManager.start_collection g with
  | error e =>
      simp only [Bind.bind, Except.bind]
      intro hcon
      exact start_collection_ne_CIP c.generationManager g hcg
        (by rw [hstart, Except.error.inj hcon])
  | ok gm₁ =>
      simp only [Bind.bind, Except.bind]
      cases hga : ({ c with generationManager := gm₁ } : Collector).generationManager.get_generation g with
      | none => simp
      | some genA =>
          dsimp only
          cases hmerge : ({ c with generationManager := gm₁ } : Collector).merge_younger_generations g with
          | error e =>
              simp only [Bind.bind, Except.bind, hmerge]
              intro hcon
              exact merge_ne_CIP _ g (by rw [hmerge, Except.error.inj hcon])
          | ok cB =>
              simp only [Bind.bind, Except.bind, hmerge]
              cases hmain : cB.collect_main g with
              | error e =>
                  simp only [hmain]
                  intro hcon
                  exact collect_main_ne_CIP cB g (by rw [hmain, Except.error.inj hcon])
              | ok p =>
                  obtain ⟨m, cC⟩ := p
                  simp only [hmain]
                  by_cases hg2 : g < 2
                  · rw [if_pos hg2]
                    cases hprom : cC.generationManager.promote_generation g with
                    | error e =>
                        simp only [Bind.bind, Except.bind, hprom]
                        intro hcon
                        exact promote_ne_CIP cC.generationManager g
                          (by rw [hprom, Except.error.inj hcon])
                    | ok gm₂ =>
                        simp [Bind.bind, Except.bind, hprom, pure, Except.pure]
                  · rw [if_neg hg2]
                    simp [Bind.bind, Except.bind, pure, Except.pure]

/-- A successful `set_threshold` does not touch the collector. -/
theorem set_threshold_collector (gc gc' : GarbageCollector) (g t : Nat)
    (h : gc.set_threshold g t = .ok gc') : gc'.collector = gc.collector := by
  unfold GarbageCollector.set_threshold at h
  split at h
  · exact absurd h (by simp)
  · rw [← Except.ok.inj h]

/-- `track_object_fast` never touches `uncollectable`. -/
theorem track_object_fast_unc (c : Collector) (obj : PyObject) (c' : Collector)
    (h : c.track_object_fast obj = .ok c') :
    c'.uncollectable = c.uncollectable := by
  unfold Collector.track_object_fast at h
  split at h
  · exact absurd h (by simp)
  · dsimp only at h
    cases hadd : c.generationManager.add_to_generation0
        { obj with gcTracked := true, gcHead := Option.some PyGCHead.new } with
    | error e =>
        rw [hadd] at h
        exact absurd h (by simp [Bind.bind, Except.bind])
    | ok gm =>
        rw [hadd] at h
        simp [Bind.bind, Except.bind, pure, Except.pure] at h
        rw [← h]

/-- `untrack_object_fast` never touches `uncollectable`. -/
theorem untrack_object_fast_unc (c : Collector) (objId : ObjectId) (c' : Collector)
    (h : c.untrack_object_fast objId = .ok c') :
    c'.uncollectable = c.uncollectable := by
  unfold Collector.untrack_object_fast at h
  cases hrem : alRemove c.trackedObjects objId with
  | mk fst rest =>
      rw [hrem] at h
      cases fst with
      | none => exact absurd h (by simp)
      | some o =>
          dsimp only at h
          cases hg0 : ({ c with trackedObjects := rest } : Collector).generationManager.get_generation 0 with
          | none =>
              rw [hg0] at h
              rw [← Except.ok.inj h]
          | some g0 =>
              rw [hg0] at h
              dsimp only at h
              cases hro : g0.remove_object objId with
              | error e =>
                  rw [hro] at h
                  rw [← Except.ok.inj h]
              | ok p =>
                  rw [hro] at h
                  obtain ⟨po, pg⟩ := p
                  dsimp only at h
                  rw [← Except.ok.inj h]

/-- Facade `track` never touches `uncollectable`. -/
theorem track_unc (gc gc' : GarbageCollector) (obj : PyObject)
    (h : gc.track obj = .ok gc') :
    gc'.collector.uncollectable = gc.collector.uncollectable := by
  unfold GarbageCollector.track at h
  split at h
  · rw [← Except.ok.inj h]
  · cases htr : gc.collector.track_object_fast obj with
    | error e =>
        rw [htr] at h
        exact absurd h (by simp [Bind.bind, Except.bind])
    | ok c' =>
        rw [htr] at h
        simp [Bind.bind, Except.bind, pure, Except.pure] at h
        rw [← h]
        exact track_object_fast_unc _ obj c' htr

/-- Facade `untrack` never touches `uncollectable`. -/
theorem untrack_unc (gc gc' : GarbageCollector) (objId : ObjectId)
    (h : gc.untrack objId = .ok gc') :
    gc'.collector.uncollectable = gc.collector.uncollectable := by
  unfold GarbageCollector.untrack at h
  split at h
  · rw [← Except.ok.inj h]
  · cases htr : gc.collector.untrack_object_fast objId with
    | error e =>
        rw [htr] at h
        exact absurd h (by simp [Bind.bind, Except.bind])
    | ok c' =>
        rw [htr] at h
        simp [Bind.bind, Except.bind, pure, Except.pure] at h
        rw [← h]
        exact untrack_object_fast_unc _ objId c' htr

/-- Facade `collect_generation` grows `uncollectable` only by objects the
collector's finalizer test accepts. -/
theorem facade_collect_generation_unc (gc gc' : GarbageCollector)
    (g : Nat) (fid : ObjectId) (n : Nat)
    (h : gc.collect_generation g fid = .ok (n, gc')) :
    ∀ o ∈ gc'.collector.uncollectable,
      o ∈ gc.collector.uncollectable ∨ Collector.hasFinalizerOf o = true := by
  unfold GarbageCollector.collect_generation at h
  split at h
  · have hp := Except.ok.inj h
    rw [Prod.mk.injEq] at hp
    rw [← hp.2]
    exact fun o ho => Or.inl ho
  · cases hcg : gc.collector.collect_generation g fid with
    | error e =>
        rw [hcg] at h
        exact absurd h (by simp [Bind.bind, Except.bind])
    | ok p =>
        obtain ⟨m, c'⟩ := p
        rw [hcg] at h
        simp [Bind.bind, Except.bind, pure, Except.pure] at h
        rw [← h.2]
        exact (collect_generation_inv _ g fid m c' hcg).2.2.2

/-- Facade `collect` grows `uncollectable` only by objects the collector's
finalizer test accepts. -/
theorem facade_collect_unc (gc gc' : GarbageCollector) (fid : ObjectId) (n : Nat)
    (h : gc.collect fid = .ok (n, gc')) :
    ∀ o ∈ gc'.collector.uncollectable,
      o ∈ gc.collector.uncollectable ∨ Collector.hasFinalizerOf o = true := by
  unfold GarbageCollector.collect at h
  split at h
  · have hp := Except.ok.inj h
    rw [Prod.mk.injEq] at hp
    rw [← hp.2]
    exact fun o ho => Or.inl ho
  · cases hcg : gc.collector.collect_generation 2 fid with
    | error e =>
        rw [hcg] at h
        exact absurd h (by simp [Bind.bind, Except.bind])
    | ok p =>
        obtain ⟨m, c'⟩ := p
        rw [hcg] at h
        simp [Bind.bind, Except.bind, pure, Except.pure] at h
        rw [← h.2]
        exact (collect_generation_inv _ 2 fid m c' hcg).2.2.2

/-- Facade `collect_if_needed` grows `uncollectable` only by objects the
collector's finalizer test accepts. -/
theorem facade_collect_if_needed_unc (gc gc' : GarbageCollector)
    (fid : ObjectId) (n : Nat)
    (h : gc.collect_if_needed fid = .ok (n, gc')) :
    ∀ o ∈ gc'.collector.uncollectable,
      o ∈ gc.collector.uncollectable ∨ Collector.hasFinalizerOf o = true := by
  unfold GarbageCollector.collect_if_needed at h
  split at h
  · have hp := Except.ok.inj h
    rw [Prod.mk.injEq] at hp
    rw [← hp.2]
    exact fun o ho => Or.inl ho
  · dsimp only at h
    split at h
    · cases hcg : gc.collector.collect_generation 2 fid with
      | error e =>
          rw [hcg] at h
          exact absurd h (by simp [Bind.bind, Except.bind])
      | ok p =>
          obtain ⟨m, c'⟩ := p
          rw [hcg] at h
          simp [Bind.bind, Except.bind, pure, Except.pure] at h
          rw [← h.2]
          exact (collect_generation_inv _ 2 fid m c' hcg).2.2.2
    · split at h
      · cases hcg : gc.collector.collect_generation 1 fid with
        | error e =>
            rw [hcg] at h
            exact absurd h (by simp [Bind.bind, Except.bind])
        | ok p =>
            obtain ⟨m, c'⟩ := p
            rw [hcg] at h
            simp [Bind.bind, Except.bind, pure, Except.pure] at h
            rw [← h.2]
            exact (collect_generation_inv _ 1 fid m c' hcg).2.2.2
      · split at h
        · cases hcg : gc.collector.collect_generation 0 fid with
          | error e =>
              rw [hcg] at h
              exact absurd h (by simp [Bind.bind, Except.bind])
          | ok p =>
              obtain ⟨m, c'⟩ := p
              rw [hcg] at h
              simp [Bind.bind, Except.bind, pure, Except.pure] at h
              rw [← h.2]
              exact (collect_generation_inv _ 0 fid m c' hcg).2.2.2
        · have hp := Except.ok.inj h
          rw [Prod.mk.injEq] at hp
          rw [← hp.2]
          exact fun o ho => Or.inl ho

/-- An in-range index always finds a generation. -/
theorem get_generation_lt (gm : GenerationManager) (idx : Nat)
    (hlt : idx < gm.generations.length) :
    ∃ gen, gm.get_generation idx = Option.some gen := by
  unfold GenerationManager.get_generation
  rw [List.get?_eq_getElem?, List.getElem?_eq_getElem hlt]
  exact ⟨_, rfl⟩

/-- A found generation means the index is in range. -/
theorem get_generation_some_lt (gm : GenerationManager) (idx : Nat)
    (gen : Generation) (h : gm.get_generation idx = Option.some gen) :
    idx < gm.generations.length := by
  unfold GenerationManager.get_generation at h
  rw [List.get?_eq_getElem?] at h
  by_contra hge
  rw [List.getElem?_eq_none (by omega)] at h
  exact Option.noConfusion h

/-- `start_collection` on an idle manager with the index in range: the
explicit successful result. -/
theorem start_collection_ok (gm : GenerationManager) (idx : Nat)
    (hcg : gm.collectingGeneration = Option.none)
    (hlt : idx < gm.generations.length) :
    gm.start_collection idx
      = .ok { gm with collectingGeneration := Option.some idx } := by
  unfold GenerationManager.start_collection
  rw [hcg]
  simp only [Option.isSome_none, Bool.false_eq_true, if_false]
  rw [if_neg (by omega)]

/-- `collect_generation 2` on an idle collector whose younger generations
are already drained: it succeeds and reports `collect_main`'s count over
the oldest generation's current entries. -/
theorem collect_again (cD : Collector) (fid' : ObjectId) (e0 e1 gt : Generation)
    (hco : cD.collectingObjects = [])
    (hcg : cD.generationManager.collectingGeneration = Option.none)
    (h0 : cD.generationManager.get_generation 0 = Option.some e0)
    (he0 : e0.objects = [])
    (h1 : cD.generationManager.get_generation 1 = Option.some e1)
    (he1 : e1.objects = [])
    (h2 : cD.generationManager.get_generation 2 = Option.some gt) :
    ∃ c'', cD.collect_generation 2 fid'
      = .ok (if gt.is_empty then 0 else collectMainCount gt.objects, c'') := by
  have hlt : 2 < cD.generationManager.generations.length :=
    get_generation_some_lt _ 2 gt h2
  have hcont : (cD.collectingObjects.contains fid') = false := by
    rw [hco]
    rfl
  unfold Collector.collect_generation
  rw [if_neg (by rw [hcont]; exact Bool.false_ne_true)]
  rw [start_collection_ok cD.generationManager 2 hcg hlt]
  simp only [Bind.bind, Except.bind]
  have hh2 : ({ cD with generationManager := { cD.generationManager with collectingGeneration := Option.some 2 } } : Collector).generationManager.get_generation 2 = Option.some gt := h2
  rw [hh2]
  dsimp only
  have hh0 : ({ cD with generationManager := { cD.generationManager with collectingGeneration := Option.some 2 } } : Collector).generationManager.get_generation 0 = Option.some e0 := h0
  have hh1 : ({ cD with generationManager := { cD.generationManager with collectingGeneration := Option.some 2 } } : Collector).generationManager.get_generation 1 = Option.some e1 := h1
  rw [merge2_empty _ e0 e1 hh0 he0 hh1 he1]
  simp only [Bind.bind, Except.bind]
  have hm2 : ({ cD with generationManager := (({ cD.generationManager with collectingGeneration := Option.some 2 } : GenerationManager).setGeneration 0 { e0 with objects := [], count := 0 }).setGeneration 1 { e1 with objects := [], count := 0 } } : Collector).generationManager.get_generation 2 = Option.some gt := by
    dsimp only
    rw [get_generation_setGeneration_ne _ 1 2 _ (by decide),
      get_generation_setGeneration_ne _ 0 2 _ (by decide)]
    exact h2
  by_cases hE : gt.is_empty
  · rw [collect_main_empty _ 2 gt hm2 hE]
    rw [if_pos hE]
    simp only [Bind.bind, Except.bind]
    rw [if_neg (by omega : ¬ (2 : Nat) < 2)]
    simp only [Bind.bind, Except.bind, pure, Except.pure]
    exact ⟨_, rfl⟩
  · obtain ⟨tr, hchar⟩ := collect_main_char _ 2 gt hm2
      (Bool.not_eq_true _ ▸ Bool.of_not_eq_true hE)
    rw [hchar]
    rw [if_neg hE]
    simp only [Bind.bind, Except.bind]
    rw [if_neg (by omega : ¬ (2 : Nat) < 2)]
    simp only [Bind.bind, Except.bind, pure, Except.pure]
    exact ⟨_, rfl⟩

/-- Collecting generation 2 twice in a row: when a first
`collect_generation 2` succeeds with count `n` (from a state whose
collection-in-progress scratch set is empty), an immediately following
`collect_generation 2` also succeeds and reports the same count `n`. -/
theorem collect2_repeat (c : Collector) (fid fid' : ObjectId) (n : Nat)
    (c' : Collector) (hco : c.collectingObjects = [])
    (h : c.collect_generation 2 fid = .ok (n, c')) :
    ∃ c'', c'.collect_generation 2 fid' = .ok (n, c'') := by
  unfold Collector.collect_generation at h
  have hcont : (c.collectingObjects.contains fid) = false := by
    rw [hco]
    rfl
  rw [if_neg (by rw [hcont]; exact Bool.false_ne_true)] at h
  cases hstart : c.generationManager.start_collection 2 with
  | error e =>
      rw [hstart] at h
      exact absurd h (by simp [Bind.bind, Except.bind])
  | ok gm₁ =>
      rw [hstart] at h
      simp only [Bind.bind, Except.bind] at h
      obtain ⟨hidle, hlen2, hgm₁⟩ := start_collection_inv _ _ _ hstart
      subst hgm₁
      obtain ⟨g0, hg0⟩ := get_generation_lt c.generationManager 0 (by omega)
      obtain ⟨g1, hg1⟩ := get_generation_lt c.generationManager 1 (by omega)
      cases hga : ({ c with generationManager := { c.generationManager with collectingGeneration := Option.some 2 } } : Collector).generationManager.get_generation 2 with
      | none =>
          rw [hga] at h
          exact absurd h (by simp)
      | some gA =>
          rw [hga] at h
          dsimp only at h
          cases hmerge : ({ c with generationManager := { c.generationManager with collectingGeneration := Option.some 2 } } : Collector).merge_younger_generations 2 with
          | error e =>
              rw [hmerge] at h
              exact absurd h (by simp [Bind.bind, Except.bind])
          | ok cB =>
              rw [hmerge] at h
              simp only [Bind.bind, Except.bind] at h
              have hg0m : ({ c with generationManager := { c.generationManager with collectingGeneration := Option.some 2 } } : Collector).generationManager.get_generation 0 = Option.some g0 := hg0
              have hg1m : ({ c with generationManager := { c.generationManager with collectingGeneration := Option.some 2 } } : Collector).generationManager.get_generation 1 = Option.some g1 := hg1
              obtain ⟨m0, m1, mtr, mco, munc, mdf, mcg, mlen⟩ :=
                merge2_inv _ cB g0 g1 hg0m hg1m hmerge
              obtain ⟨genM, hgenM⟩ := get_generation_lt cB.generationManager 2
                (by rw [mlen]; exact hlen2)
              have hcoB : cB.collectingObjects = [] := by
                rw [mco]
                exact hco
              by_cases hE : genM.is_empty
              · rw [collect_main_empty cB 2 genM hgenM hE] at h
                simp only at h
                rw [if_neg (by omega : ¬ (2 : Nat) < 2)] at h
                simp only [Bind.bind, Except.bind, pure, Except.pure] at h
                have hpair := Except.ok.inj h
                rw [Prod.mk.injEq] at hpair
                rw [← hpair.1, ← hpair.2]
                obtain ⟨c'', hsec⟩ := collect_again { cB with generationManager := cB.generationManager.end_collection } fid' { g0 with objects := [], count := 0 } { g1 with objects := [], count := 0 } genM hcoB rfl m0 rfl m1 rfl hgenM
                rw [if_pos hE] at hsec
                exact ⟨c'', hsec⟩
              · have hEf : genM.is_empty = false :=
                  Bool.not_eq_true _ ▸ Bool.of_not_eq_true hE
                obtain ⟨tr, hchar⟩ := collect_main_char cB 2 genM hgenM hEf
                rw [hchar] at h
                simp only at h
                rw [if_neg (by omega : ¬ (2 : Nat) < 2)] at h
                simp only [Bind.bind, Except.bind, pure, Except.pure] at h
                have hpair := Except.ok.inj h
                rw [Prod.mk.injEq] at hpair
                rw [← hpair.1, ← hpair.2]
                have h0s : (cB.generationManager.setGeneration 2 { genM with objects := genM.objects.map pipeFn }).get_generation 0 = Option.some { g0 with objects := [], count := 0 } := by
                  rw [get_generation_setGeneration_ne _ 2 0 _ (by decide)]
                  exact m0
                have h1s : (cB.generationManager.setGeneration 2 { genM with objects := genM.objects.map pipeFn }).get_generation 1 = Option.some { g1 with objects := [], count := 0 } := by
                  rw [get_generation_setGeneration_ne _ 2 1 _ (by decide)]
                  exact m1
                have h2s := get_generation_setGeneration_self cB.generationManager 2
                  genM { genM with objects := genM.objects.map pipeFn } hgenM
                obtain ⟨c'', hsec⟩ := collect_again { cB with generationManager := (cB.generationManager.setGeneration 2 { genM with objects := genM.objects.map pipeFn }).end_collection, trackedObjects := tr, uncollectable := cB.uncollectable ++ ((((genM.objects.map Collector.updFn).map Collector.subFn).map Prod.snd).filter Collector.isShadowZero).filter Collector.hasFinalizerOf } fid' { g0 with objects := [], count := 0 } { g1 with objects := [], count := 0 } { genM with objects := genM.objects.map pipeFn } hcoB rfl h0s rfl h1s rfl h2s
                have hXE : ({ genM with objects := genM.objects.map pipeFn } : Generation).is_empty = false := hEf
                rw [if_neg (by rw [hXE]; exact Bool.false_ne_true)] at hsec
                dsimp only at hsec
                rw [collectMainCount_pipeFn] at hsec
                exact ⟨c'', hsec⟩

/-! Claims. -/

/-- C9: `ObjectId::new` hands out non-zero ids that strictly increase call
over call (hence ids of distinct allocations differ), as long as the
wrapping `usize` counter has not overflowed. -/
theorem claim_C9_object_ids (a b : Nat) (hab : a < b) (hb : b < 2 ^ 64 - 1) :
    objectIdAt a ≠ 0 ∧ objectIdAt a < objectIdAt b ∧ objectIdAt a ≠ objectIdAt b := by
  unfold objectIdAt
  have h1 : 1 + a < 2 ^ 64 := by omega
  have h2 : 1 + b < 2 ^ 64 := by omega
  rw [Nat.mod_eq_of_lt h1, Nat.mod_eq_of_lt h2]
  omega

/-- Witness for C9 at the first two allocations. -/
theorem claim_C9_witness :
    0 < 1 ∧ (objectIdAt 0 ≠ 0 ∧ objectIdAt 0 < objectIdAt 1 ∧ objectIdAt 0 ≠ objectIdAt 1) :=
  ⟨by decide, claim_C9_object_ids 0 1 (by decide) (by decide)⟩

/-- C8: `py_gc_collect_generation` rejects any generation index outside
`0..=2` with `InvalidGeneration` (stable code −4) and leaves the collector
state untouched. -/
theorem claim_C8_invalid_generation (gc : GarbageCollector) (g : Int)
    (fid : ObjectId) (hg : g < 0 ∨ 2 < g) :
    py_gc_collect_generation (Option.some gc) g fid
      = (GCReturnCode.errorInvalidGeneration, Option.some gc) ∧
    GCReturnCode.errorInvalidGeneration.toInt = -4 := by
  constructor
  · unfold py_gc_collect_generation
    have hng : ¬ (0 ≤ g ∧ g ≤ 2) := by omega
    simp [hng]
  · rfl

/-- Witness for C8 at generation index 3. -/
theorem claim_C8_witness :
    ((3 : Int) < 0 ∨ 2 < (3 : Int)) ∧
    (py_gc_collect_generation (Option.some GarbageCollector.new) 3 5
      = (GCReturnCode.errorInvalidGeneration, Option.some GarbageCollector.new) ∧
     GCReturnCode.errorInvalidGeneration.toInt = -4) :=
  ⟨Or.inr (by decide), claim_C8_invalid_generation GarbageCollector.new 3 5 (Or.inr (by decide))⟩

/-- C6 counterexample: track an object, disable, untrack; the call returns
`Ok` but the object is still tracked — the count does not reflect any
removal, refuting that `untrack` still works while disabled. -/
theorem claim_C6_counterexample :
    disabledUntrackGC.map
      (fun gc => (gc.get_count, gc.collector.trackedObjects.map Prod.fst))
      = .ok (1, [1]) := by rfl

/-- C6 amended: while the facade is disabled, `untrack` — like `track`,
`collect` and `collect_if_needed` — is a success no-op: it returns `Ok`
and leaves the whole facade state unchanged. -/
theorem claim_C6_amended (gc : GarbageCollector) (objId : ObjectId)
    (h : gc.enabled = false) : gc.untrack objId = .ok gc := by
  unfold GarbageCollector.untrack
  simp [h]

/-- Witness for C6 amended on a freshly disabled facade. -/
theorem claim_C6_witness :
    (GarbageCollector.new.disable).enabled = false ∧
    (GarbageCollector.new.disable).untrack 1 = .ok (GarbageCollector.new.disable) :=
  ⟨rfl, claim_C6_amended GarbageCollector.new.disable 1 rfl⟩

/-- C5 counterexample: after `set_threshold(0, 2)` and tracking two
objects, `needs_collection()` is still `false` (the claim predicts `true`),
even though the facade's threshold reads back as 2 and both objects are in
generation 0. -/
theorem claim_C5_counterexample :
    thresholdGC.map
      (fun gc => (gc.needs_collection, gc.get_threshold 0,
        (gc.collector.generationManager.get_generation 0).map Generation.count))
      = .ok (false, Option.some 2, Option.some 2) := by rfl

/-- C5 amended: `set_threshold` updates only the facade's threshold array
and never touches the collector, so `needs_collection` — which consults
the generation's own threshold (700 by default) — is unaffected: in the
scenario it stays `false`, and `collect_if_needed` collects nothing and
leaves it `false`. -/
theorem claim_C5_amended (gc : GarbageCollector) (t : Nat) :
    ((gc.set_threshold 0 t).map GarbageCollector.collector) = .ok gc.collector ∧
    ((gc.set_threshold 0 t).map GarbageCollector.needs_collection)
      = .ok gc.needs_collection ∧
    thresholdGC.map GarbageCollector.needs_collection = .ok false ∧
    (do
      let gc ← thresholdGC
      let (n, gc') ← gc.collect_if_needed 99
      pure (n, gc'.needs_collection) : GCResult (Nat × Bool)) = .ok (0, false) := by
  refine ⟨rfl, rfl, rfl, rfl⟩

/-- C4 counterexample: in `weakPairGraph` the only reference is the weak
edge 1 → 2, yet `find_reachable([1])` contains 2 — weak edges are
followed, refuting the claim. -/
theorem claim_C4_counterexample :
    2 ∈ weakPairGraph.find_reachable [1] ∧
    weakPairGraph.refsOf 1
      = [{ fromId := 1, toId := 2, referenceType := ReferenceType.weak }] ∧
    weakPairGraph.refsOf 2 = [] := by decide

/-- C4 amended: `find_reachable(roots)` returns exactly the ids reachable
from the roots by breadth-first traversal following reference edges of
every type — direct, finalizer-link, and weak alike. -/
theorem claim_C4_amended (g : ObjectGraph) (roots : List ObjectId) (x : ObjectId) :
    x ∈ g.find_reachable roots ↔ ObjectGraph.ReachesFrom g roots x :=
  ObjectGraph.find_reachable_iff g roots x

/-- Per-entry effect of `update_refs` followed by `subtract_refs`: the key
is unchanged and the shadow count becomes the refcount decremented once,
floored at zero — no matter what the payload references. -/
theorem subFn_updFn_entry (p : ObjectId × PyObject) :
    (Collector.subFn (Collector.updFn p)).1 = p.1 ∧
    (Collector.subFn (Collector.updFn p)).2.gcHead.map PyGCHead.get_refs
      = p.2.gcHead.map (fun _ => shadowAfterSubtract p.2.refcount) := by
  obtain ⟨k, o⟩ := p
  cases ho : o.gcHead with
  | none =>
      unfold Collector.updFn Collector.subFn
      simp [ho]
  | some h =>
      unfold Collector.updFn
      simp only [ho]
      unfold Collector.subFn
      simp only [PyGCHead.set_refs, PyGCHead.set_collecting, PyGCHead.get_refs,
        PyObject.get_refcount, shadowAfterSubtract]
      by_cases hrc : 0 < o.refcount
      · have hrci : (Int.ofNat o.refcount) > 0 := Int.ofNat_pos.mpr hrc
        simp [hrc, hrci, PyGCHead.get_refs]
      · have hrci : ¬ (Int.ofNat o.refcount) > 0 := fun hcon => hrc (Int.ofNat_pos.mp hcon)
        simp [hrc, hrci, PyGCHead.get_refs]

/-- C1 counterexample: one tracked object with refcount 2 and no payload
children (zero in-S edges).  After `update_refs; subtract_refs` its shadow
count is 1, but the claim predicts `refcount − in-S edges = 2`. -/
theorem claim_C1_counterexample :
    (c1ScenarioSub.generationManager.get_generation 0).map
        (fun gen => gen.objects.map (fun p => (p.1, p.2.gcHead.map PyGCHead.get_refs)))
      = Option.some [(1, Option.some 1)] ∧
    (Int.ofNat (sampleObject 1 2 ObjectData.none).refcount)
        - Int.ofNat (inSEdgeCount c1ScenarioGen.objects 1) = 2 ∧
    (1 : Int) ≠ 2 := by
  refine ⟨rfl, rfl, by decide⟩

/-- C1 amended: after the `update_refs; subtract_refs` prefix of a
collection over generation `g`, every object of that generation keeps its
key and holds shadow count `max(refcount − 1, 0)`: `subtract_refs`
decrements each shadow count once per object, not once per in-S incoming
edge (it performs no payload traversal at all). -/
theorem claim_C1_amended (c : Collector) (g : Nat) (gen : Generation)
    (c₁ c₂ : Collector)
    (hget : c.generationManager.get_generation g = Option.some gen)
    (hupd : c.update_refs g = .ok c₁)
    (hsub : c₁.subtract_refs g = .ok c₂) :
    ∃ gen₂, c₂.generationManager.get_generation g = Option.some gen₂ ∧
      gen₂.objects.length = gen.objects.length ∧
      ∀ i (hi : i < gen.objects.length) (hi₂ : i < gen₂.objects.length),
        (gen₂.objects.get ⟨i, hi₂⟩).1 = (gen.objects.get ⟨i, hi⟩).1 ∧
        (gen₂.objects.get ⟨i, hi₂⟩).2.gcHead.map PyGCHead.get_refs
          = (gen.objects.get ⟨i, hi⟩).2.gcHead.map
              (fun _ => shadowAfterSubtract (gen.objects.get ⟨i, hi⟩).2.refcount) := by
  rw [update_refs_eq c g gen hget] at hupd
  have hc₁ : c₁ = { c with generationManager := c.generationManager.setGeneration g { gen with objects := gen.objects.map Collector.updFn } } :=
    (Except.ok.inj hupd).symm
  have hget₁ : c₁.generationManager.get_generation g
      = Option.some { gen with objects := gen.objects.map Collector.updFn } := by
    rw [hc₁]
    exact get_generation_setGeneration_self c.generationManager g gen _ hget
  rw [subtract_refs_eq c₁ g _ hget₁] at hsub
  have hc₂ : c₂ = { c₁ with generationManager := c₁.generationManager.setGeneration g { gen with objects := (gen.objects.map Collector.updFn).map Collector.subFn } } :=
    (Except.ok.inj hsub).symm
  refine ⟨{ gen with objects := (gen.objects.map Collector.updFn).map Collector.subFn },
    ?_, by simp, ?_⟩
  · rw [hc₂]
    exact get_generation_setGeneration_self c₁.generationManager g _ _ hget₁
  · intro i hi hi₂
    have hentry := subFn_updFn_entry (gen.objects.get ⟨i, hi⟩)
    simp only [List.map_map] at hi₂ ⊢
    simp only [List.get_eq_getElem, List.getElem_map]
    simpa [Function.comp] using hentry

/-- Witness for C1 amended on the concrete scenario. -/
theorem claim_C1_witness :
    (c1ScenarioStart.generationManager.get_generation 0 = Option.some c1ScenarioGen ∧
     c1ScenarioStart.update_refs 0 = .ok c1ScenarioUpd ∧
     c1ScenarioUpd.subtract_refs 0 = .ok c1ScenarioSub) ∧
    (∃ gen₂, c1ScenarioSub.generationManager.get_generation 0 = Option.some gen₂ ∧
      gen₂.objects.length = c1ScenarioGen.objects.length ∧
      ∀ i (hi : i < c1ScenarioGen.objects.length) (hi₂ : i < gen₂.objects.length),
        (gen₂.objects.get ⟨i, hi₂⟩).1 = (c1ScenarioGen.objects.get ⟨i, hi⟩).1 ∧
        (gen₂.objects.get ⟨i, hi₂⟩).2.gcHead.map PyGCHead.get_refs
          = (c1ScenarioGen.objects.get ⟨i, hi⟩).2.gcHead.map
              (fun _ => shadowAfterSubtract (c1ScenarioGen.objects.get ⟨i, hi⟩).2.refcount)) :=
  ⟨⟨rfl, rfl, rfl⟩,
   claim_C1_amended c1ScenarioStart 0 c1ScenarioGen c1ScenarioUpd c1ScenarioSub rfl rfl rfl⟩

/-- C2 counterexample: the cycle A↔B with an external root holding A
(`A.refcount = 2`, `B.refcount = 1`).  `collect()` reports 1 reclaimed
object — B is dropped from the tracked set even though A still references
it — whereas the claim predicts 0 reclaimed with both still tracked. -/
theorem claim_C2_counterexample :
    (do
      let gc ← cycleExternalGC
      let (n, gc') ← gc.collect 99
      pure (n, gc'.collector.trackedObjects.map Prod.fst)
      : GCResult (Nat × List ObjectId)) = .ok (1, [1]) ∧
    (1 : Nat) ≠ 0 := by
  refine ⟨rfl, by decide⟩

/-- C2 amended: `move_unreachable` selects exactly the objects of the
generation whose shadow count is zero, with no transitive-closure
expansion; consequently, in the A↔B scenario with the external root on A,
`collect()` reclaims B — it returns 1 and only A remains tracked. -/
theorem claim_C2_amended (c : Collector) (g : Nat) (l : List PyObject)
    (h : c.move_unreachable g = .ok l) :
    (∃ gen, c.generationManager.get_generation g = Option.some gen ∧
      l = (gen.objects.map Prod.snd).filter Collector.isShadowZero) ∧
    (do
      let gc ← cycleExternalGC
      let (n, gc') ← gc.collect 99
      pure (n, gc'.collector.trackedObjects.map Prod.fst)
      : GCResult (Nat × List ObjectId)) = .ok (1, [1]) := by
  refine ⟨?_, rfl⟩
  cases hg : c.generationManager.get_generation g with
  | none =>
      unfold Collector.move_unreachable at h
      rw [hg] at h
      exact absurd h (by simp)
  | some gen =>
      refine ⟨gen, rfl, ?_⟩
      rw [move_unreachable_eq c g gen hg] at h
      exact (Except.ok.inj h).symm

/-- Witness for C2 amended on the post-subtract C1/C2 scenario state. -/
theorem claim_C2_witness :
    c1ScenarioSub.move_unreachable 0 = .ok c2MoveResult ∧
    ((∃ gen, c1ScenarioSub.generationManager.get_generation 0 = Option.some gen ∧
       c2MoveResult = (gen.objects.map Prod.snd).filter Collector.isShadowZero) ∧
     (do
       let gc ← cycleExternalGC
       let (n, gc') ← gc.collect 99
       pure (n, gc'.collector.trackedObjects.map Prod.fst)
       : GCResult (Nat × List ObjectId)) = .ok (1, [1])) :=
  ⟨rfl, claim_C2_amended c1ScenarioSub 0 c2MoveResult rfl⟩

/-- C7 counterexample: a tracked object with `Custom` payload but
`has_finalizer == false` and all debug flags clear (SAVEALL unset) lands in
`uncollectable` after `collect()`, refuting the claimed invariant. -/
theorem claim_C7_counterexample :
    (do
      let gc ← customPayloadGC
      let (_, gc') ← gc.collect 99
      pure (gc'.collector.uncollectable.map (fun o => (o.id, o.hasFinalizer)),
        gc'.debugFlags &&& SAVEALL)
      : GCResult (List (ObjectId × Bool) × Nat)) = .ok ([(1, false)], 0) := by rfl

/-- C7 amended: in every facade state reachable by the boundary
operations, every object in the `uncollectable` set has a `Custom` payload
— the collector's `has_finalizer` test inspects the payload tag, not the
`has_finalizer` field, and the SAVEALL debug bit plays no role. -/
theorem claim_C7_amended (gc : GarbageCollector) (hr : ReachableGC gc) :
    ∀ o ∈ gc.collector.uncollectable, Collector.hasFinalizerOf o = true := by
  induction hr with
  | init =>
      intro o ho
      simp [GarbageCollector.new, Collector.new] at ho
  | enable hr ih => exact ih
  | disable hr ih => exact ih
  | set_debug flags hr ih => exact ih
  | clear_uncollectable hr ih =>
      intro o ho
      simp [GarbageCollector.clear_uncollectable] at ho
  | set_threshold g t hr hok ih =>
      intro o ho
      rw [set_threshold_collector _ _ g t hok] at ho
      exact ih o ho
  | track obj hr hok ih =>
      intro o ho
      rw [track_unc _ _ obj hok] at ho
      exact ih o ho
  | untrack objId hr hok ih =>
      intro o ho
      rw [untrack_unc _ _ objId hok] at ho
      exact ih o ho
  | collect fid n hr hok ih =>
      intro o ho
      rcases facade_collect_unc _ _ fid n hok o ho with hold | hfin
      · exact ih o hold
      · exact hfin
  | collect_generation g fid n hr hok ih =>
      intro o ho
      rcases facade_collect_generation_unc _ _ g fid n hok o ho with hold | hfin
      · exact ih o hold
      · exact hfin
  | collect_if_needed fid n hr hok ih =>
      intro o ho
      rcases facade_collect_if_needed_unc _ _ fid n hok o ho with hold | hfin
      · exact ih o hold
      · exact hfin

/-- Witness for C7 amended at the initial facade state. -/
theorem claim_C7_witness :
    ReachableGC GarbageCollector.new ∧
    (∀ o ∈ GarbageCollector.new.collector.uncollectable,
      Collector.hasFinalizerOf o = true) :=
  ⟨ReachableGC.init, claim_C7_amended GarbageCollector.new ReachableGC.init⟩

/-- C10: a successful `collect_generation` always ends the collection
(`collecting_generation = None`), so an immediately following
`collect_generation` can never fail with `CollectionInProgress`. -/
theorem claim_C10_idle_after_ok (c : Collector) (g : Nat) (fid : ObjectId)
    (n : Nat) (c' : Collector)
    (hco : c.collectingObjects = [])
    (h : c.collect_generation g fid = .ok (n, c')) :
    c'.generationManager.collectingGeneration = Option.none ∧
    ∀ g' fid', c'.collect_generation g' fid'
      ≠ .error GCError.collectionInProgress := by
  obtain ⟨h1, h2, -, -⟩ := collect_generation_inv c g fid n c' h
  refine ⟨h1, ?_⟩
  intro g' fid'
  exact collect_generation_ne_CIP c' g' fid' (by rw [h2, hco]) h1

/-- Witness for C10 on a fresh collector. -/
theorem claim_C10_witness :
    Collector.new.collectingObjects = [] ∧
    Collector.new.collect_generation 0 5 = .ok (0, c10End) ∧
    (c10End.generationManager.collectingGeneration = Option.none ∧
     ∀ g' fid', c10End.collect_generation g' fid'
       ≠ .error GCError.collectionInProgress) :=
  ⟨rfl, rfl, claim_C10_idle_after_ok Collector.new 0 5 0 c10End rfl rfl⟩


/-- C3 counterexample: the spec says a second `collect()` with no
intervening mutation reclaims zero objects; on the single-object scenario
the first `collect` reports 1 and an immediately following `collect`
reports 1 again, not 0. -/
theorem claim_C3_counterexample :
    c3AfterFirst.1 = 1 ∧
      c3AfterFirst.2.collect 6 = .ok (1, c3AfterSecond.2) := ⟨rfl, rfl⟩

/-- C3 amended: collection is stable rather than idempotent-to-zero: if
`collect()` succeeds with count `n` from a state whose
collection-in-progress scratch set is empty, an immediately following
`collect()` with no intervening mutation succeeds and reports the same
count `n` again — `clear_unreachable` never removes the counted objects
from the generation, so they are recounted. -/
theorem claim_C3_amended (gc gc' : GarbageCollector) (fid fid' : ObjectId)
    (n : Nat) (hco : gc.collector.collectingObjects = [])
    (h : gc.collect fid = .ok (n, gc')) :
    ∃ gc'', gc'.collect fid' = .ok (n, gc'') := by
  unfold GarbageCollector.collect at h
  split at h
  · rename_i hdis
    have hp := Except.ok.inj h
    rw [Prod.mk.injEq] at hp
    rw [← hp.1, ← hp.2]
    unfold GarbageCollector.collect
    rw [if_pos hdis]
    exact ⟨_, rfl⟩
  · rename_i hen
    cases hcg : gc.collector.collect_generation 2 fid with
    | error e =>
        rw [hcg] at h
        exact absurd h (by simp [Bind.bind, Except.bind])
    | ok p =>
        obtain ⟨m, c₁⟩ := p
        rw [hcg] at h
        simp [Bind.bind, Except.bind, pure, Except.pure] at h
        obtain ⟨c₂, hsec⟩ := collect2_repeat gc.collector fid fid' m c₁ hco hcg
        rw [← h.1, ← h.2]
        unfold GarbageCollector.collect
        rw [if_neg hen]
        simp only [Bind.bind, Except.bind]
        rw [show ({ gc with collector := c₁ } : GarbageCollector).collector.collect_generation 2 fid' = Except.ok (m, c₂) from hsec]
        simp only [Bind.bind, Except.bind, pure, Except.pure]
        exact ⟨_, rfl⟩

/-- Witness for C3: on the single-object scenario the hypotheses of the
amended theorem hold, the first `collect` returns 1, and the second
`collect` again returns 1. -/
theorem claim_C3_witness :
    c3TrackedGC.collector.collectingObjects = [] ∧
    c3TrackedGC.collect 5 = .ok (1, c3AfterFirst.2) ∧
    ∃ gc'', c3AfterFirst.2.collect 6 = .ok (1, gc'') :=
  ⟨rfl, rfl, claim_C3_amended c3TrackedGC c3AfterFirst.2 5 6 1 rfl rfl⟩
end PyGC
